import Mathlib

/-!
# go-nebulas `nf/nvm/engine_v8.go`: the sandboxed contract execution controller

A shallow embedding of `engine_v8.go` and the properties of its natural-language
specification.

Conventions of the embedding.

* A Go `string` is a Lean `String`; a Go `error` is an `Option Err` (`nil` is `none`);
  `uint64` values are natural numbers, reduced modulo `2 ^ 64` where the source
  computes with them (`storagesIdx++`, the sum in `RunContractScript`).
* `formatArgs` replaces the four one-byte patterns `\\`, newline, carriage return and
  `"`; on UTF-8 text a replacement of ASCII bytes is a replacement of characters, and
  the embedding works on the characters of the string.
* The native engine (`C.V8Engine`), the `core` constants, `encoding/json`, the SHA3
  hash and the Unicode fold table live outside this file of the source.  They are the
  fields of `Env`; every theorem quantifies over `Env`.
* A Go pointer `*V8Engine` is an index into `Registry.heap`.
* Each native instance carries the history of the native entry points called on it
  (`CV8Engine.calls`, newest first), so that "no script was run" is a statement
  about data.
-/

namespace Nvm

/-! ## Data model -/

/-- Errors surfaced by the engine (`nvm/types.go`, `core`), plus the error of
`json.Marshal`. -/
inductive Err where
  | ErrLimitHasEmpty
  | ErrSetMemorySmall
  | ErrExecutionFailed
  | ErrExecutionTimeout
  | ErrInsufficientGas
  | ErrExceedMemoryLimits
  | ErrUnsupportedSourceType
  | ErrTranspileTypeScriptFailed
  | ErrInjectTracingInstructionFailed
  | ErrArgumentsFormat
  | ErrDisallowCallNotStandardFunction
  | ErrDisallowCallPrivateFunction
  | ErrJSONMarshal
  deriving DecidableEq, Repr

/-- Identity of a storage capability (`Account`). -/
abbrev Account := Nat

/-- The block of a `Context`: its height and the outcome of
`json.Marshal(toSerializableBlock(block))` (`none` when marshalling fails). -/
structure Block where
  Height : Nat
  serialized : Option String
  deriving DecidableEq, Repr

/-- The transaction of a `Context`: the outcome of
`json.Marshal(toSerializableTransaction(tx))`. -/
structure Transaction where
  serialized : Option String
  deriving DecidableEq, Repr

/-- Execution context `Context` of an engine. -/
structure Context where
  block : Block
  tx : Transaction
  contract : Account
  owner : Account
  deriving DecidableEq, Repr

/-- The `stats` member of the native engine. -/
structure Stats where
  count_of_executed_instructions : Nat
  total_memory_size : Nat
  deriving DecidableEq, Repr

/-- Native entry points of `v8/engine.h` called by this file. -/
inductive NativeCall where
  | TranspileTypeScriptModule (source : String)
  | InjectTracingInstructions (source : String) (strict : Int)
  | ReadMemoryStatistics
  | RunScriptSource (source : String) (lineOffset : Int) (lcsHandler gcsHandler : Nat)
  | TerminateExecution
  | DeleteEngine
  deriving DecidableEq, Repr

/-- The native instance `C.V8Engine`: its address, the fields this file reads and
writes, and the history of native calls made on it (newest first). -/
structure CV8Engine where
  addr : Nat
  limits_of_executed_instructions : Nat
  limits_of_total_memory_size : Nat
  stats : Stats
  calls : List NativeCall
  deriving DecidableEq, Repr

/-- A registered module (`NewModule(id, source, sourceLineOffset)`). -/
structure Module where
  id : String
  source : String
  sourceLineOffset : Int
  deriving DecidableEq, Repr

/-- Modelled from the spec: the type `Modules` and its `Add` (`module.go`) are not part
of the source file; the spec only says that the builder "registers a module".  The
registrations of an engine are kept as a list, newest first. -/
abbrev Modules := List Module

/-- Modelled from the spec: `NewModules()` of `module.go`, no module registered. -/
def NewModules : Modules := []

/-- Modelled from the spec: `Modules.Add` of `module.go`, records the registration. -/
def Modules.Add (ms : Modules) (m : Module) : Modules := m :: ms

/-- The Go struct `V8Engine`. -/
structure V8Engine where
  ctx : Context
  modules : Modules
  v8engine : CV8Engine
  strictDisallowUsageOfInstructionCounter : Int
  enableLimits : Bool
  limitsOfExecutionInstructions : Nat
  limitsOfTotalMemorySize : Nat
  actualCountOfExecutionInstructions : Nat
  actualTotalMemorySize : Nat
  lcsHandler : Nat
  gcsHandler : Nat
  deriving DecidableEq, Repr

/-- The Go struct `sourceModuleItem`. -/
structure sourceModuleItem where
  source : String
  sourceLineOffset : Int
  traceableSource : String
  traceableSourceLineOffset : Int
  deriving DecidableEq, Repr

/-- What the worker goroutine and the `select` of `RunScriptSource` observe: the
return code and result of `C.RunScriptSource`, and whether the deadline elapsed
before the completion signal. -/
structure RunOutcome where
  ret : Int
  cResult : Option String
  timedOut : Bool
  deriving DecidableEq, Repr

/-- A decoded `[]interface{}`; its representation is left to the decoder. -/
abbrev ArgsObj := String

/-- Everything `engine_v8.go` consumes from outside the file. -/
structure Env where
  /-- The constant `core.SourceTypeJavaScript`. -/
  SourceTypeJavaScript : String
  /-- The constant `core.SourceTypeTypeScript`. -/
  SourceTypeTypeScript : String
  /-- The constant `core.NvmMemoryLimitWithoutInjectHeight`. -/
  NvmMemoryLimitWithoutInjectHeight : Nat
  /-- The constant `core.DefaultLimitsOfTotalMemorySize`. -/
  DefaultLimitsOfTotalMemorySize : Nat
  /-- The predicate `core.PublicFuncNameChecker.MatchString`. -/
  PublicFuncNameChecker : String → Bool
  /-- The Unicode fold table: `SimpleFoldReaches sr tr` is the outcome of walking
  `unicode.SimpleFold` from `sr` up to `tr`, for `sr < tr` and `tr` outside ASCII. -/
  SimpleFoldReaches : Char → Char → Bool
  /-- The hash `byteutils.Hex(hash.Sha3256([]byte(source)))`. -/
  sourceHash : String → String
  /-- The decoder `json.Unmarshal` into a `[]interface{}`. -/
  jsonUnmarshal : String → Option ArgsObj
  /-- The encoder `json.Marshal` of a `[]interface{}`. -/
  jsonMarshal : ArgsObj → Option String
  /-- The native `C.TranspileTypeScriptModule`; `none` is a `nil` result. -/
  TranspileTypeScriptModule : CV8Engine → String → Option (String × Int)
  /-- The native `C.InjectTracingInstructions`; `none` is a `nil` result. -/
  InjectTracingInstructions : CV8Engine → String → Int → Option (String × Int)
  /-- The native `C.ReadMemoryStatistics`: the content of `stats` afterwards. -/
  ReadMemoryStatistics : CV8Engine → Stats
  /-- The native `C.RunScriptSource` raced against the deadline. -/
  RunScriptSource : CV8Engine → String → Int → Nat → Nat → RunOutcome

/-- The constant `ExecutionTimeoutInSeconds`. -/
def ExecutionTimeoutInSeconds : Nat := 5

/-- Wrap-around of `uint64` arithmetic. -/
def u64 (n : Nat) : Nat := n % 2 ^ 64

/-! ## Resource limiter -/

/-- The method `SetExecutionLimits`: both ceilings are written to the native instance
and to the engine first, and validated afterwards. -/
def SetExecutionLimits (e : V8Engine) (limitsOfExecutionInstructions limitsOfTotalMemorySize : Nat) :
    V8Engine × Option Err :=
  let e1 : V8Engine :=
    { e with
      v8engine :=
        { e.v8engine with
          limits_of_executed_instructions := limitsOfExecutionInstructions
          limits_of_total_memory_size := limitsOfTotalMemorySize }
      limitsOfExecutionInstructions := limitsOfExecutionInstructions
      limitsOfTotalMemorySize := limitsOfTotalMemorySize }
  if limitsOfExecutionInstructions = 0 ∨ limitsOfTotalMemorySize = 0 then
    (e1, some Err.ErrLimitHasEmpty)
  else if limitsOfTotalMemorySize > 0 ∧ limitsOfTotalMemorySize < 6000000 then
    (e1, some Err.ErrSetMemorySmall)
  else
    (e1, none)

/-- The method `ExecutionInstructions`. -/
def ExecutionInstructions (e : V8Engine) : Nat :=
  e.actualCountOfExecutionInstructions

/-- The method `SetEnableLimit`. -/
def SetEnableLimit (e : V8Engine) (isLimit : Bool) : V8Engine :=
  { e with enableLimits := isLimit }

/-- The native instance after one more native call. -/
def CV8Engine.called (c : CV8Engine) (call : NativeCall) : CV8Engine :=
  { c with calls := call :: c.calls }

/-- The method `CollectTracingStats`: read the native statistics and copy them into
the engine. -/
def CollectTracingStats (env : Env) (e : V8Engine) : V8Engine :=
  let st := env.ReadMemoryStatistics e.v8engine
  { e with
    v8engine := { e.v8engine.called NativeCall.ReadMemoryStatistics with stats := st }
    actualCountOfExecutionInstructions := st.count_of_executed_instructions
    actualTotalMemorySize := st.total_memory_size }

/-- The engine when `RunScriptSource` reaches "collect tracing stats": the run has
been issued, and `C.TerminateExecution` too when the deadline elapsed first. -/
def afterRun (env : Env) (e : V8Engine) (source : String) (sourceLineOffset : Int) : V8Engine :=
  let o := env.RunScriptSource e.v8engine source sourceLineOffset e.lcsHandler e.gcsHandler
  let c1 := e.v8engine.called
    (NativeCall.RunScriptSource source sourceLineOffset e.lcsHandler e.gcsHandler)
  let c2 := if o.timedOut then c1.called NativeCall.TerminateExecution else c1
  { e with v8engine := c2 }

/-- The statistics `RunScriptSource` measures after the run (and after the drain of the
completion signal on a timeout). -/
def measured (env : Env) (e : V8Engine) (source : String) (sourceLineOffset : Int) : Stats :=
  env.ReadMemoryStatistics (afterRun env e source sourceLineOffset).v8engine

/-- The method `RunScriptSource`. -/
def RunScriptSource (env : Env) (e : V8Engine) (source : String) (sourceLineOffset : Int) :
    V8Engine × String × Option Err :=
  let o := env.RunScriptSource e.v8engine source sourceLineOffset e.lcsHandler e.gcsHandler
  -- the `select`
  let err0 : Option Err :=
    if o.timedOut then some Err.ErrExecutionTimeout
    else if o.ret ≠ 0 then some Err.ErrExecutionFailed
    else none
  let result : String :=
    match o.cResult with
    | some r => r
    | none => if o.ret = 0 then "\"\"" else ""
  -- collect tracing stats
  let e1 := CollectTracingStats env (afterRun env e source sourceLineOffset)
  let err1 : Option Err :=
    if e1.limitsOfExecutionInstructions > 0 ∧
        e1.limitsOfExecutionInstructions < e1.actualCountOfExecutionInstructions then
      some Err.ErrInsufficientGas
    else if e1.limitsOfTotalMemorySize > 0 ∧
        e1.limitsOfTotalMemorySize < e1.actualTotalMemorySize then
      some Err.ErrExceedMemoryLimits
    else err0
  let e2 : V8Engine :=
    if e1.actualCountOfExecutionInstructions > e1.limitsOfExecutionInstructions ∨
        err1 = some Err.ErrExceedMemoryLimits then
      { e1 with actualCountOfExecutionInstructions := e1.limitsOfExecutionInstructions }
    else e1
  (e2, result, err1)

/-! ## Instrumentation cache -/

/-- The bounded cache `sourceModuleCache` (`lru.New(40960)` of
`hashicorp/golang-lru`): the entries, most recently used first. -/
abbrev LRU := List (String × sourceModuleItem)

/-- The size given to `lru.New`. -/
def sourceModuleCacheSize : Nat := 40960

/-- The method `Contains` of the cache: membership, without touching recency. -/
def LRU.Contains (c : LRU) (key : String) : Bool :=
  (c.lookup key).isSome

/-- The method `Get` of the cache: the value, and the entry moved to the front. -/
def LRU.Get (c : LRU) (key : String) : LRU × Option sourceModuleItem :=
  match c.lookup key with
  | some v => ((key, v) :: c.filter (fun kv => kv.1 ≠ key), some v)
  | none => (c, none)

/-- The method `Add` of the cache: an existing key is updated and moved to the front;
a new key is pushed to the front and the oldest entry is evicted when the size is
exceeded. -/
def LRU.Add (c : LRU) (key : String) (value : sourceModuleItem) : LRU :=
  match c.lookup key with
  | some _ => (key, value) :: c.filter (fun kv => kv.1 ≠ key)
  | none =>
    let c1 := (key, value) :: c
    if c1.length > sourceModuleCacheSize then c1.dropLast else c1

/-- The method `TranspileTypeScript`. -/
def TranspileTypeScript (env : Env) (e : V8Engine) (source : String) :
    V8Engine × String × Int × Option Err :=
  let e1 : V8Engine :=
    { e with v8engine := e.v8engine.called (NativeCall.TranspileTypeScriptModule source) }
  match env.TranspileTypeScriptModule e.v8engine source with
  | none => (e1, "", 0, some Err.ErrTranspileTypeScriptFailed)
  | some (jsSource, lineOffset) => (e1, jsSource, lineOffset, none)

/-- The method `InjectTracingInstructions`. -/
def InjectTracingInstructions (env : Env) (e : V8Engine) (source : String) :
    V8Engine × String × Int × Option Err :=
  let e1 : V8Engine :=
    { e with
      v8engine := e.v8engine.called
        (NativeCall.InjectTracingInstructions source e.strictDisallowUsageOfInstructionCounter) }
  match env.InjectTracingInstructions e.v8engine source
      e.strictDisallowUsageOfInstructionCounter with
  | none => (e1, "", 0, some Err.ErrInjectTracingInstructionFailed)
  | some (traceableSource, lineOffset) => (e1, traceableSource, lineOffset, none)

/-- The method `AddModule`, on the shared cache and the engine. -/
def AddModule (env : Env) (cache : LRU) (e : V8Engine) (id source : String)
    (sourceLineOffset : Int) : LRU × V8Engine × Option Err :=
  if e.enableLimits then
    let sourceHash := env.sourceHash source
    -- try read from cache
    let (cache1, item) : LRU × Option sourceModuleItem :=
      if cache.Contains sourceHash then cache.Get sourceHash else (cache, none)
    match item with
    | some item =>
      let m : Module := ⟨id, item.traceableSource, item.traceableSourceLineOffset⟩
      (cache1, { e with modules := e.modules.Add m }, none)
    | none =>
      match InjectTracingInstructions env e source with
      | (e1, _, _, some err) => (cache1, e1, some err)
      | (e1, traceableSource, lineOffset, none) =>
        let item : sourceModuleItem :=
          { source := source
            sourceLineOffset := sourceLineOffset
            traceableSource := traceableSource
            traceableSourceLineOffset := lineOffset }
        -- put to cache
        let cache2 := cache1.Add sourceHash item
        let m : Module := ⟨id, item.traceableSource, item.traceableSourceLineOffset⟩
        (cache2, { e1 with modules := e1.modules.Add m }, none)
  else
    let m : Module := ⟨id, source, sourceLineOffset⟩
    (cache, { e with modules := e.modules.Add m }, none)

/-! ## Invocation builder -/

/-- The call `strings.Replace(s, old, new, -1)` for a pattern `old` of one character:
every occurrence of `old` is replaced by `new`. -/
def stringsReplace (s : List Char) (old : Char) (new : List Char) : List Char :=
  s.flatMap (fun c => if c = old then new else [c])

/-- The function `formatArgs` on the characters of the string: the four
replacements, in the order of the source. -/
def formatArgsChars (s : List Char) : List Char :=
  let s := stringsReplace s '\\' ['\\', '\\']
  let s := stringsReplace s '\n' ['\\', 'n']
  let s := stringsReplace s '\r' ['\\', 'r']
  let s := stringsReplace s '"' ['\\', '"']
  s

/-- The function `formatArgs`. -/
def formatArgs (s : String) : String :=
  String.mk (formatArgsChars s.data)

/-- The constant `ModuleID` of `prepareRunnableContractScript`. -/
def ModuleID : String := "contract.js"

/-- The `fmt.Sprintf` of `prepareRunnableContractScript`: the template with its five
`%s` filled in. -/
def runnableTemplate (block tx moduleID function args : String) : String :=
  "Blockchain.blockParse(\"" ++ block ++ "\");\n" ++
  "\t\t\t\t\t\t\t\t\tBlockchain.transactionParse(\"" ++ tx ++ "\");\n" ++
  "\t\t\t\t\t\t\t\t\tvar __contract = require(\"" ++ moduleID ++ "\");\n" ++
  "\t\t\t\t\t\t\t\t\tvar __instance = new __contract();\n" ++
  "\t\t\t\t\t\t\t\t\t__instance[\"" ++ function ++ "\"].apply(__instance, JSON.parse(\"" ++
  args ++ "\"));"

/-- The method `prepareRunnableContractScript`. -/
def prepareRunnableContractScript (env : Env) (cache : LRU) (e : V8Engine)
    (source function args : String) : LRU × V8Engine × String × Int × Option Err :=
  let sourceLineOffset : Int := 0
  -- add module
  match AddModule env cache e ModuleID source sourceLineOffset with
  | (cache1, e1, some err) => (cache1, e1, "", 0, some err)
  | (cache1, e1, none) =>
    -- prepare for execute
    match e1.ctx.block.serialized with
    | none => (cache1, e1, "", 0, some Err.ErrJSONMarshal)
    | some blockJSON =>
      match e1.ctx.tx.serialized with
      | none => (cache1, e1, "", 0, some Err.ErrJSONMarshal)
      | some txJSON =>
        let argsInput : Option String :=
          if args.length > 0 then
            match env.jsonUnmarshal args with
            | none => none
            | some argsObj => env.jsonMarshal argsObj
          else some "[]"
        match argsInput with
        | none => (cache1, e1, "", 0, some Err.ErrArgumentsFormat)
        | some argsInput =>
          (cache1, e1,
            runnableTemplate (formatArgs blockJSON) (formatArgs txJSON) ModuleID function
              (formatArgs argsInput),
            0, none)

/-- Result of the caller-facing entry points: the cache and the engine afterwards, the
result string and the error. -/
structure Outcome where
  cache : LRU
  engine : V8Engine
  result : String
  err : Option Err
  deriving DecidableEq, Repr

/-- The part of `RunContractScript` after the `switch`, reading the variables
`runnableSource`, `sourceLineOffset` and `err` of the function body. -/
def runPrepared (env : Env) (cache : LRU) (e : V8Engine) (runnableSource : String)
    (sourceLineOffset : Int) (err : Option Err) : Outcome :=
  match err with
  | some err => ⟨cache, e, "", some err⟩
  | none =>
    if e.ctx.block.Height ≥ env.NvmMemoryLimitWithoutInjectHeight then
      let e1 := CollectTracingStats env e
      let mem := u64 (e1.actualTotalMemorySize + env.DefaultLimitsOfTotalMemorySize)
      match SetExecutionLimits e1 e1.limitsOfExecutionInstructions mem with
      | (e2, some err) => ⟨cache, e2, "", some err⟩
      | (e2, none) =>
        let r := RunScriptSource env e2 runnableSource sourceLineOffset
        ⟨cache, r.1, r.2.1, r.2.2⟩
    else
      let r := RunScriptSource env e runnableSource sourceLineOffset
      ⟨cache, r.1, r.2.1, r.2.2⟩

/-- The method `RunContractScript`.  In the TypeScript case the source declares a new
`err` with `:=` inside the case clause; the assignment from
`prepareRunnableContractScript` in that clause writes this inner variable, and the
`err` tested after the `switch` is the one of the function body, still `nil`. -/
def RunContractScript (env : Env) (cache : LRU) (e : V8Engine)
    (source sourceType function args : String) : Outcome :=
  if sourceType = env.SourceTypeJavaScript then
    match prepareRunnableContractScript env cache e source function args with
    | (cache1, e1, runnableSource, sourceLineOffset, err) =>
      runPrepared env cache1 e1 runnableSource sourceLineOffset err
  else if sourceType = env.SourceTypeTypeScript then
    -- transpile to javascript
    match TranspileTypeScript env e source with
    | (e1, _, _, some err) => ⟨cache, e1, "", some err⟩
    | (e1, jsSource, _, none) =>
      match prepareRunnableContractScript env cache e1 jsSource function args with
      | (cache2, e2, runnableSource, sourceLineOffset, _) =>
        runPrepared env cache2 e2 runnableSource sourceLineOffset none
  else
    ⟨cache, e, "", some Err.ErrUnsupportedSourceType⟩

/-- The method `DeployAndInit`. -/
def DeployAndInit (env : Env) (cache : LRU) (e : V8Engine) (source sourceType args : String) :
    Outcome :=
  RunContractScript env cache e source sourceType "init" args

/-- One step of `strings.EqualFold`: whether the runes `sr` and `tr` are equal under
simple case folding.  Equal runes match; otherwise the smaller one is taken first; two
ASCII runes match when they are an upper-case letter and its lower-case form; a rune
outside ASCII is looked up in the Unicode fold table. -/
def foldEq (env : Env) (sr tr : Char) : Bool :=
  if tr = sr then true
  else
    let lo := if tr < sr then tr else sr
    let hi := if tr < sr then sr else tr
    if hi.toNat < 128 then
      decide ('A'.toNat ≤ lo.toNat ∧ lo.toNat ≤ 'Z'.toNat ∧ hi.toNat = lo.toNat + 32)
    else env.SimpleFoldReaches lo hi

/-- The function `strings.EqualFold` on the runes of its arguments. -/
def EqualFoldRunes (env : Env) : List Char → List Char → Bool
  | [], [] => true
  | [], _ :: _ => false
  | _ :: _, [] => false
  | sr :: s, tr :: t => foldEq env sr tr && EqualFoldRunes env s t

/-- The function `strings.EqualFold`. -/
def EqualFold (env : Env) (s t : String) : Bool :=
  EqualFoldRunes env s.data t.data

/-- The method `Call`. -/
def Call (env : Env) (cache : LRU) (e : V8Engine) (source sourceType function args : String) :
    Outcome :=
  if env.PublicFuncNameChecker function = false then
    ⟨cache, e, "", some Err.ErrDisallowCallNotStandardFunction⟩
  else if EqualFold env "init" function = true then
    ⟨cache, e, "", some Err.ErrDisallowCallPrivateFunction⟩
  else
    RunContractScript env cache e source sourceType function args

/-! ## Handle registry -/

/-- The package-level registry: the engine objects allocated so far (a `*V8Engine` is
an index into `heap`), the maps `storages` and `engines`, and the counter
`storagesIdx`. -/
structure Registry where
  heap : List V8Engine
  storages : Nat → Option Nat
  storagesIdx : Nat
  engines : Nat → Option Nat

/-- The registry at package initialisation: empty maps, counter `0`. -/
def Registry.empty : Registry :=
  { heap := [], storages := fun _ => none, storagesIdx := 0, engines := fun _ => none }

/-- The function `NewV8Engine`; `created` is the native instance returned by
`C.CreateEngine()`.  Returns the registry and the pointer to the new engine. -/
def NewV8Engine (w : Registry) (ctx : Context) (created : CV8Engine) : Registry × Nat :=
  let engine : V8Engine :=
    { ctx := ctx
      modules := NewModules
      v8engine := created
      strictDisallowUsageOfInstructionCounter := 1
      enableLimits := true
      limitsOfExecutionInstructions := 0
      limitsOfTotalMemorySize := 0
      actualCountOfExecutionInstructions := 0
      actualTotalMemorySize := 0
      lcsHandler := 0
      gcsHandler := 0 }
  let p := w.heap.length
  let engines := Function.update w.engines engine.v8engine.addr (some p)
  let idx1 := u64 (w.storagesIdx + 1)
  let engine := { engine with lcsHandler := idx1 }
  let idx2 := u64 (idx1 + 1)
  let engine := { engine with gcsHandler := idx2 }
  let storages := Function.update w.storages engine.lcsHandler (some p)
  let storages := Function.update storages engine.gcsHandler (some p)
  ({ heap := w.heap ++ [engine], storages := storages, storagesIdx := idx2, engines := engines }, p)

/-- The method `Dispose` on the engine at pointer `p`. -/
def Dispose (w : Registry) (p : Nat) : Registry :=
  match w.heap[p]? with
  | none => w
  | some e =>
    let storages := Function.update w.storages e.lcsHandler none
    let storages := Function.update storages e.gcsHandler none
    let engines := Function.update w.engines e.v8engine.addr none
    { heap := w.heap.set p { e with v8engine := e.v8engine.called NativeCall.DeleteEngine }
      storages := storages
      storagesIdx := w.storagesIdx
      engines := engines }

/-- The method `Context`. -/
def V8Engine.Context (e : V8Engine) : Context := e.ctx

/-- The function `getEngineByStorageHandler`: the engine pointer and the storage
capability, `none` for `nil`. -/
def getEngineByStorageHandler (w : Registry) (handler : Nat) : Option Nat × Option Account :=
  match w.storages handler with
  | none => (none, none)
  | some p =>
    match w.heap[p]? with
    | none => (none, none)
    | some engine =>
      if engine.lcsHandler = handler then (some p, some engine.ctx.contract)
      else if engine.gcsHandler = handler then
        -- disable gcs according to issue 23
        (none, none)
      else (none, none)

/-- The function `getEngineByEngineHandler`. -/
def getEngineByEngineHandler (w : Registry) (handler : Nat) : Option Nat :=
  w.engines handler

/-- States of the registry reached from package initialisation by calls of
`NewV8Engine` and of `Dispose` on engines created before. -/
inductive Reachable : Registry → Prop where
  | empty : Reachable Registry.empty
  | newEngine (w : Registry) (ctx : Context) (created : CV8Engine) :
      Reachable w → Reachable (NewV8Engine w ctx created).1
  | dispose (w : Registry) (p : Nat) :
      Reachable w → p < w.heap.length → Reachable (Dispose w p)

/-- Whether a native call is a script run (`C.RunScriptSource`). -/
def NativeCall.isRun : NativeCall → Bool
  | NativeCall.RunScriptSource _ _ _ _ => true
  | _ => false

/-- The scripts run so far on the native instance of an engine, newest first. -/
def scriptRuns (e : V8Engine) : List NativeCall :=
  e.v8engine.calls.filter NativeCall.isRun

/-- Whether a native call is an instrumentation (`C.InjectTracingInstructions`). -/
def NativeCall.isInject : NativeCall → Bool
  | NativeCall.InjectTracingInstructions _ _ => true
  | _ => false

/-- The instrumentations performed so far on the native instance of an engine. -/
def injections (e : V8Engine) : List NativeCall :=
  e.v8engine.calls.filter NativeCall.isInject

/-- Parity of the handle ids: the counter `storagesIdx` is even, and every engine
allocated so far has an odd Local id and an even Global id. -/
def HandleParity (w : Registry) : Prop :=
  w.storagesIdx % 2 = 0 ∧ ∀ e ∈ w.heap, e.lcsHandler % 2 = 1 ∧ e.gcsHandler % 2 = 0

/-! ## The escapes read back -/

/-- The string-literal decoder of the script engine for the escapes `\\`, `\n`, `\r`
and `\"`, stated from the specification: an escape yields the character it denotes,
every other character stands for itself. -/
def unescapeChars : List Char → List Char
  | [] => []
  | '\\' :: '\\' :: rest => '\\' :: unescapeChars rest
  | '\\' :: 'n' :: rest => '\n' :: unescapeChars rest
  | '\\' :: 'r' :: rest => '\r' :: unescapeChars rest
  | '\\' :: '"' :: rest => '"' :: unescapeChars rest
  | c :: rest => c :: unescapeChars rest

/-- The decoder `unescapeChars` on strings. -/
def unescape (s : String) : String :=
  String.mk (unescapeChars s.data)

/-- The run of backslashes at the end of a text: its length. -/
def trailingBackslashes (l : List Char) : Nat :=
  (l.reverse.takeWhile (fun c => c == '\\')).length

/-- Reading a text from the left, whether the reader is inside an escape (it has just
read a backslash that is not itself escaped); `p` is the state before the text. -/
def insideEscape (p : Bool) (l : List Char) : Bool :=
  l.foldl (fun q c => if c = '\\' then !q else false) p

/-- A text read from state `p` in which a double quote only occurs inside an escape
and which does not end inside an escape. -/
def quotesEscaped : Bool → List Char → Bool
  | p, [] => !p
  | p, c :: rest =>
    if c = '\\' then quotesEscaped (!p) rest
    else if c = '"' then p && quotesEscaped false rest
    else quotesEscaped false rest

/-! ## Registry states and their history -/

/-- The engine `e` at pointer `p` is registered: both its handle ids and its native
identity are keys of the maps, and their entries point to it. -/
def Registered (w : Registry) (p : Nat) (e : V8Engine) : Prop :=
  w.heap[p]? = some e ∧ w.storages e.lcsHandler = some p ∧
  w.storages e.gcsHandler = some p ∧ w.engines e.v8engine.addr = some p

/-- Registry states reached from package initialisation by calls of `NewV8Engine` and
`Dispose`, together with the pointers of the engines disposed so far. -/
inductive History : Registry → List Nat → Prop where
  | empty : History Registry.empty []
  | newEngine (w : Registry) (d : List Nat) (ctx : Context) (created : CV8Engine) :
      History w d → History (NewV8Engine w ctx created).1 d
  | dispose (w : Registry) (d : List Nat) (p : Nat) :
      History w d → p < w.heap.length → History (Dispose w p) (p :: d)

/-- The handle ids issued so far, as values of the counter: the counter has been
incremented twice per engine, and the engine created in position `i` received the
values `2 * i + 1` and `2 * i + 2`, as `uint64`. -/
def HandleIds (w : Registry) : Prop :=
  w.storagesIdx = u64 (2 * w.heap.length) ∧
  ∀ i e, w.heap[i]? = some e →
    e.lcsHandler = u64 (2 * i + 1) ∧ e.gcsHandler = u64 (2 * i + 2)

/-! ## Building, as seen by `RunContractScript` -/

/-- The invocation built by the `switch` of `RunContractScript`: the cache and the
engine after the build, the runnable script and its line offset; `none` when the
source type is unsupported, the transpilation fails or the builder returns an
error. -/
def buildInvocation (env : Env) (cache : LRU) (e : V8Engine)
    (source sourceType function args : String) : Option (LRU × V8Engine × String × Int) :=
  if sourceType = env.SourceTypeJavaScript then
    match prepareRunnableContractScript env cache e source function args with
    | (cache1, e1, runnableSource, sourceLineOffset, none) =>
      some (cache1, e1, runnableSource, sourceLineOffset)
    | (_, _, _, _, some _) => none
  else if sourceType = env.SourceTypeTypeScript then
    match TranspileTypeScript env e source with
    | (_, _, _, some _) => none
    | (e1, jsSource, _, none) =>
      match prepareRunnableContractScript env cache e1 jsSource function args with
      | (cache2, e2, runnableSource, sourceLineOffset, none) =>
        some (cache2, e2, runnableSource, sourceLineOffset)
      | (_, _, _, _, some _) => none
  else none

/-- The engine `RunContractScript` hands to `RunScriptSource` at or above the height
threshold, for the engine `e` left by the build: the statistics have been collected and
`SetExecutionLimits` has been called with the instruction ceiling of `e` and the
memory just measured plus the default allowance. -/
def engineAtRun (env : Env) (e : V8Engine) : V8Engine :=
  (SetExecutionLimits (CollectTracingStats env e)
    (CollectTracingStats env e).limitsOfExecutionInstructions
    (u64 ((CollectTracingStats env e).actualTotalMemorySize +
      env.DefaultLimitsOfTotalMemorySize))).1

/-! ## Concrete instances -/

/-- A public-function-name predicate: a letter or `$`, then letters, digits, `_`, `$`. -/
def samplePublicFuncName (s : String) : Bool :=
  match s.data with
  | [] => false
  | c :: cs => (c.isAlpha || c == '$') && cs.all (fun d => d.isAlphanum || d == '_' || d == '$')

/-- An environment whose script run always ends with `outcome` and whose statistics
always read `stats`; the transpiler and the instrumenter reject the empty source and
the source `)`, and arguments decode when they start with `[`. -/
def envWith (outcome : RunOutcome) (stats : Stats) : Env :=
  { SourceTypeJavaScript := "js"
    SourceTypeTypeScript := "ts"
    NvmMemoryLimitWithoutInjectHeight := 1000
    DefaultLimitsOfTotalMemorySize := 40000000
    PublicFuncNameChecker := samplePublicFuncName
    SimpleFoldReaches := fun _ _ => false
    sourceHash := fun src => src
    jsonUnmarshal := fun a => match a.data with
      | '[' :: _ => some a
      | _ => none
    jsonMarshal := fun o => some o
    TranspileTypeScriptModule := fun _ src =>
      if src = "" ∨ src = ")" then none else some (src, 0)
    InjectTracingInstructions := fun _ src _ =>
      if src = "" ∨ src = ")" then none else some ("_instruction_counter.incr(1);" ++ src, 1)
    ReadMemoryStatistics := fun _ => stats
    RunScriptSource := fun _ _ _ _ _ => outcome }

/-- A context at block height `1`. -/
def sampleContext : Context :=
  { block := ⟨1, some "[\"block\"]"⟩, tx := ⟨some "[\"tx\"]"⟩, contract := 7, owner := 8 }

/-- The native instance at address `64`, as created. -/
def sampleNative : CV8Engine :=
  { addr := 64, limits_of_executed_instructions := 0, limits_of_total_memory_size := 0,
    stats := ⟨0, 0⟩, calls := [] }

/-- The first engine created on an empty registry, with the given ceilings. -/
def sampleEngine (limitInstructions limitMemory : Nat) : V8Engine :=
  { ctx := sampleContext
    modules := NewModules
    v8engine := sampleNative
    strictDisallowUsageOfInstructionCounter := 1
    enableLimits := true
    limitsOfExecutionInstructions := limitInstructions
    limitsOfTotalMemorySize := limitMemory
    actualCountOfExecutionInstructions := 0
    actualTotalMemorySize := 0
    lcsHandler := 1
    gcsHandler := 2 }

/-- The engine `sampleEngine` on a block of the given height. -/
def sampleEngineAt (height limitInstructions limitMemory : Nat) : V8Engine :=
  { sampleEngine limitInstructions limitMemory with
    ctx := { sampleContext with block := ⟨height, some "[\"block\"]"⟩ } }

/-- The registry after `n` engines have been created, one after the other, on the
empty registry. -/
def creations : Nat → Registry
  | 0 => Registry.empty
  | n + 1 => (NewV8Engine (creations n) sampleContext sampleNative).1

/-! ## Verdicts of `RunScriptSource` -/

/-- The error returned by `RunScriptSource` in terms of the run outcome and of the
measured statistics: the instruction verdict first, then the memory verdict, then the
error of the `select`. -/
theorem RunScriptSource_err (env : Env) (e : V8Engine) (source : String) (off : Int) :
    (RunScriptSource env e source off).2.2 =
      if e.limitsOfExecutionInstructions > 0 ∧
          e.limitsOfExecutionInstructions < (measured env e source off).count_of_executed_instructions then
        some Err.ErrInsufficientGas
      else if e.limitsOfTotalMemorySize > 0 ∧
          e.limitsOfTotalMemorySize < (measured env e source off).total_memory_size then
        some Err.ErrExceedMemoryLimits
      else if (env.RunScriptSource e.v8engine source off e.lcsHandler e.gcsHandler).timedOut then
        some Err.ErrExecutionTimeout
      else if (env.RunScriptSource e.v8engine source off e.lcsHandler e.gcsHandler).ret ≠ 0 then
        some Err.ErrExecutionFailed
      else none := by
  simp only [RunScriptSource, CollectTracingStats, afterRun, measured]

/-- C1: whatever the run outcome, when the instruction ceiling is greater than 0 and
the measured instruction count is greater than the ceiling, `RunScriptSource` returns
`ErrInsufficientGas`. -/
theorem RunScriptSource_insufficient_gas (env : Env) (e : V8Engine) (source : String)
    (off : Int) (hpos : 0 < e.limitsOfExecutionInstructions)
    (hover : e.limitsOfExecutionInstructions <
      (measured env e source off).count_of_executed_instructions) :
    (RunScriptSource env e source off).2.2 = some Err.ErrInsufficientGas := by
  rw [RunScriptSource_err, if_pos ⟨hpos, hover⟩]

/-- Witness of C1: ceiling 100, measured count 200, on a run that completed with
status 0. -/
theorem RunScriptSource_insufficient_gas_witness :
    (RunScriptSource (envWith ⟨0, none, false⟩ ⟨200, 0⟩) (sampleEngine 100 0) "x" 0).2.2 =
      some Err.ErrInsufficientGas :=
  RunScriptSource_insufficient_gas (envWith ⟨0, none, false⟩ ⟨200, 0⟩) (sampleEngine 100 0)
    "x" 0 (by decide) (by decide)

/-- C2 fails as stated: with both ceilings 1 and both measurements 2 the memory
ceiling is positive and exceeded, and `RunScriptSource` returns `ErrInsufficientGas`,
not `ErrExceedMemoryLimits`. -/
theorem RunScriptSource_memory_verdict_shadowed :
    0 < (sampleEngine 1 1).limitsOfTotalMemorySize ∧
    (sampleEngine 1 1).limitsOfTotalMemorySize <
      (measured (envWith ⟨0, none, false⟩ ⟨2, 2⟩) (sampleEngine 1 1) "x" 0).total_memory_size ∧
    (RunScriptSource (envWith ⟨0, none, false⟩ ⟨2, 2⟩) (sampleEngine 1 1) "x" 0).2.2 ≠
      some Err.ErrExceedMemoryLimits := by
  decide

/-- C2, amended: whatever the run outcome, when the memory ceiling is greater than 0
and the measured memory is greater than the ceiling, and the instruction verdict does
not fire (the instruction ceiling is 0 or the measured count is at most the ceiling),
`RunScriptSource` returns `ErrExceedMemoryLimits`. -/
theorem RunScriptSource_exceed_memory (env : Env) (e : V8Engine) (source : String)
    (off : Int) (hpos : 0 < e.limitsOfTotalMemorySize)
    (hover : e.limitsOfTotalMemorySize < (measured env e source off).total_memory_size)
    (hgas : e.limitsOfExecutionInstructions = 0 ∨
      (measured env e source off).count_of_executed_instructions ≤
        e.limitsOfExecutionInstructions) :
    (RunScriptSource env e source off).2.2 = some Err.ErrExceedMemoryLimits := by
  rw [RunScriptSource_err, if_neg (by omega), if_pos ⟨hpos, hover⟩]

/-- Witness of the amended C2: memory ceiling 6000000, measured memory 7000000,
instruction ceiling 100 and measured count 50. -/
theorem RunScriptSource_exceed_memory_witness :
    (RunScriptSource (envWith ⟨0, none, false⟩ ⟨50, 7000000⟩) (sampleEngine 100 6000000)
      "x" 0).2.2 = some Err.ErrExceedMemoryLimits :=
  RunScriptSource_exceed_memory (envWith ⟨0, none, false⟩ ⟨50, 7000000⟩)
    (sampleEngine 100 6000000) "x" 0 (by decide) (by decide) (by decide)

/-- C3 fails as stated: on a run whose deadline elapsed first, with instruction ceiling
100 and 200 instructions read after the drain, `RunScriptSource` returns
`ErrInsufficientGas`, not `ErrExecutionTimeout`. -/
theorem RunScriptSource_timeout_overridden :
    ((envWith ⟨1, none, true⟩ ⟨200, 0⟩).RunScriptSource (sampleEngine 100 0).v8engine "x" 0
      (sampleEngine 100 0).lcsHandler (sampleEngine 100 0).gcsHandler).timedOut = true ∧
    (RunScriptSource (envWith ⟨1, none, true⟩ ⟨200, 0⟩) (sampleEngine 100 0) "x" 0).2.2 ≠
      some Err.ErrExecutionTimeout := by
  decide

/-- C3, amended: on every run whose deadline elapses before the completion signal,
`RunScriptSource` returns `ErrExecutionTimeout` unless a resource verdict fires on
the statistics read after the drain; then it returns that verdict, `ErrInsufficientGas`
when the instruction ceiling is positive and exceeded, otherwise
`ErrExceedMemoryLimits` when the memory ceiling is positive and exceeded. -/
theorem RunScriptSource_timeout (env : Env) (e : V8Engine) (source : String) (off : Int)
    (htimeout :
      (env.RunScriptSource e.v8engine source off e.lcsHandler e.gcsHandler).timedOut = true) :
    (RunScriptSource env e source off).2.2 =
      if e.limitsOfExecutionInstructions > 0 ∧
          e.limitsOfExecutionInstructions < (measured env e source off).count_of_executed_instructions then
        some Err.ErrInsufficientGas
      else if e.limitsOfTotalMemorySize > 0 ∧
          e.limitsOfTotalMemorySize < (measured env e source off).total_memory_size then
        some Err.ErrExceedMemoryLimits
      else some Err.ErrExecutionTimeout := by
  rw [RunScriptSource_err, htimeout]
  simp

/-- Witness of the amended C3: a timed-out run within both ceilings returns
`ErrExecutionTimeout`. -/
theorem RunScriptSource_timeout_witness :
    (RunScriptSource (envWith ⟨1, none, true⟩ ⟨50, 6500000⟩) (sampleEngine 100 7000000)
      "x" 0).2.2 = some Err.ErrExecutionTimeout :=
  (RunScriptSource_timeout (envWith ⟨1, none, true⟩ ⟨50, 6500000⟩) (sampleEngine 100 7000000)
    "x" 0 (by decide)).trans (by decide)

/-! ## Validation of the ceilings -/

/-- C5: for every `X`, `SetExecutionLimits(0, X)` and `SetExecutionLimits(X, 0)` return
`ErrLimitHasEmpty`. -/
theorem SetExecutionLimits_zero (e : V8Engine) (X : Nat) :
    (SetExecutionLimits e 0 X).2 = some Err.ErrLimitHasEmpty ∧
    (SetExecutionLimits e X 0).2 = some Err.ErrLimitHasEmpty := by
  simp [SetExecutionLimits]

/-- C6 fails as stated: `SetExecutionLimits(0, 1)` has `0 < 1 < 6000000` and returns
`ErrLimitHasEmpty`, not `ErrSetMemorySmall`. -/
theorem SetExecutionLimits_small_memory_zero_instructions :
    0 < 1 ∧ 1 < 6000000 ∧
    (SetExecutionLimits (sampleEngine 0 0) 0 1).2 ≠ some Err.ErrSetMemorySmall := by
  decide

/-- C6, amended: for every instruction ceiling `X` other than 0 and every memory
ceiling `m` with `0 < m < 6000000`, `SetExecutionLimits(X, m)` returns
`ErrSetMemorySmall`. -/
theorem SetExecutionLimits_small_memory (e : V8Engine) (X m : Nat) (hX : X ≠ 0)
    (hpos : 0 < m) (hsmall : m < 6000000) :
    (SetExecutionLimits e X m).2 = some Err.ErrSetMemorySmall := by
  have hm : m ≠ 0 := by omega
  simp [SetExecutionLimits, hX, hm, hpos, hsmall]

/-- Witness of the amended C6: `SetExecutionLimits(1000, 5999999)`. -/
theorem SetExecutionLimits_small_memory_witness :
    (SetExecutionLimits (sampleEngine 0 0) 1000 5999999).2 = some Err.ErrSetMemorySmall :=
  SetExecutionLimits_small_memory (sampleEngine 0 0) 1000 5999999 (by decide) (by decide)
    (by decide)

/-! ## Building the invocation -/

/-- The method `AddModule` runs no script. -/
theorem AddModule_scriptRuns (env : Env) (cache : LRU) (e : V8Engine) (id source : String)
    (off : Int) : scriptRuns (AddModule env cache e id source off).2.1 = scriptRuns e := by
  unfold AddModule
  by_cases hl : e.enableLimits = true
  · simp only [hl, if_true]
    by_cases hc : cache.Contains (env.sourceHash source) = true
    · simp only [hc, if_true]
      cases hg : (cache.Get (env.sourceHash source)).2 with
      | some item => simp [hg, scriptRuns]
      | none =>
        cases hi : env.InjectTracingInstructions e.v8engine source
            e.strictDisallowUsageOfInstructionCounter with
        | none =>
          simp [hg, InjectTracingInstructions, hi, scriptRuns, CV8Engine.called,
            NativeCall.isRun]
        | some v =>
          simp [hg, InjectTracingInstructions, hi, scriptRuns, CV8Engine.called,
            NativeCall.isRun]
    · simp only [hc]
      cases hi : env.InjectTracingInstructions e.v8engine source
          e.strictDisallowUsageOfInstructionCounter with
      | none =>
        simp [InjectTracingInstructions, hi, scriptRuns, CV8Engine.called, NativeCall.isRun]
      | some v =>
        simp [InjectTracingInstructions, hi, scriptRuns, CV8Engine.called, NativeCall.isRun]
  · simp [hl, scriptRuns]

/-- The engine left by `prepareRunnableContractScript` is the one left by its
`AddModule`. -/
theorem prepareRunnableContractScript_engine (env : Env) (cache : LRU) (e : V8Engine)
    (source function args : String) :
    (prepareRunnableContractScript env cache e source function args).2.1 =
      (AddModule env cache e ModuleID source 0).2.1 := by
  unfold prepareRunnableContractScript
  simp only
  split
  · next heq => rw [heq]
  · next heq =>
    rw [heq]
    repeat' split
    all_goals rfl

/-- The method `prepareRunnableContractScript` runs no script. -/
theorem prepareRunnableContractScript_scriptRuns (env : Env) (cache : LRU) (e : V8Engine)
    (source function args : String) :
    scriptRuns (prepareRunnableContractScript env cache e source function args).2.1 =
      scriptRuns e := by
  rw [prepareRunnableContractScript_engine, AddModule_scriptRuns]

/-- When `prepareRunnableContractScript` fails, the script and the line offset it
returns are the empty string and 0. -/
theorem prepareRunnableContractScript_failed (env : Env) (cache : LRU) (e : V8Engine)
    (source function args : String) (err : Err)
    (h : (prepareRunnableContractScript env cache e source function args).2.2.2.2 = some err) :
    (prepareRunnableContractScript env cache e source function args).2.2.1 = "" ∧
    (prepareRunnableContractScript env cache e source function args).2.2.2.1 = 0 := by
  revert h
  unfold prepareRunnableContractScript
  simp only
  repeat' split
  all_goals first
    | (intro _; exact ⟨rfl, rfl⟩)
    | (intro h; simp at h)

/-- JavaScript path of `RunContractScript`: an invocation that cannot be built returns
the error of the builder with an empty result, and no script is run. -/
theorem RunContractScript_javascript_build_error (env : Env) (cache : LRU) (e : V8Engine)
    (source function args : String) (err : Err)
    (h : (prepareRunnableContractScript env cache e source function args).2.2.2.2 = some err) :
    (RunContractScript env cache e source env.SourceTypeJavaScript function args).err = some err ∧
    (RunContractScript env cache e source env.SourceTypeJavaScript function args).result = "" ∧
    scriptRuns (RunContractScript env cache e source env.SourceTypeJavaScript function args).engine =
      scriptRuns e := by
  have hs := prepareRunnableContractScript_scriptRuns env cache e source function args
  unfold RunContractScript
  rw [if_pos rfl]
  rcases hp : prepareRunnableContractScript env cache e source function args with
    ⟨c1, e1, src, off, perr⟩
  rw [hp] at h hs
  simp only at h hs
  subst h
  simp only [runPrepared]
  exact ⟨trivial, trivial, hs⟩

/-- TypeScript path of `RunContractScript`: after a successful transpilation, an
invocation that cannot be built is not reported; the function goes on with the empty
script, line offset 0 and no error. -/
theorem RunContractScript_typescript_build_error (env : Env) (cache : LRU) (e : V8Engine)
    (source function args : String) (err : Err)
    (hne : env.SourceTypeTypeScript ≠ env.SourceTypeJavaScript)
    (ht : (TranspileTypeScript env e source).2.2.2 = none)
    (h : (prepareRunnableContractScript env cache (TranspileTypeScript env e source).1
      (TranspileTypeScript env e source).2.1 function args).2.2.2.2 = some err) :
    RunContractScript env cache e source env.SourceTypeTypeScript function args =
      runPrepared env
        (prepareRunnableContractScript env cache (TranspileTypeScript env e source).1
          (TranspileTypeScript env e source).2.1 function args).1
        (prepareRunnableContractScript env cache (TranspileTypeScript env e source).1
          (TranspileTypeScript env e source).2.1 function args).2.1
        "" 0 none := by
  have hf := prepareRunnableContractScript_failed env cache (TranspileTypeScript env e source).1
    (TranspileTypeScript env e source).2.1 function args err h
  unfold RunContractScript
  rw [if_neg hne, if_pos rfl]
  rcases hT : TranspileTypeScript env e source with ⟨e1, js, toff, terr⟩
  rw [hT] at ht hf
  simp only at ht hf
  subst ht
  simp only
  rcases hp : prepareRunnableContractScript env cache e1 js function args with
    ⟨c2, e2, src, off, perr⟩
  rw [hp] at hf
  simp only at hf
  obtain ⟨h1, h2⟩ := hf
  subst h1 h2
  rfl

/-- C4 at a failing input: TypeScript source `class C`, function `greet`, arguments
`oops` (not a JSON array), block height below the threshold.  The builder fails with
`ErrArgumentsFormat`, yet `RunContractScript` runs the empty script on the native
engine and returns its result `""` (as JSON) with no error. -/
theorem RunContractScript_typescript_bad_args :
    (prepareRunnableContractScript (envWith ⟨0, none, false⟩ ⟨0, 0⟩) []
      (TranspileTypeScript (envWith ⟨0, none, false⟩ ⟨0, 0⟩) (sampleEngine 0 0) "class C").1
      "class C" "greet" "oops").2.2.2.2 = some Err.ErrArgumentsFormat ∧
    (RunContractScript (envWith ⟨0, none, false⟩ ⟨0, 0⟩) [] (sampleEngine 0 0)
      "class C" "ts" "greet" "oops").err = none ∧
    (RunContractScript (envWith ⟨0, none, false⟩ ⟨0, 0⟩) [] (sampleEngine 0 0)
      "class C" "ts" "greet" "oops").result = "\"\"" ∧
    scriptRuns (RunContractScript (envWith ⟨0, none, false⟩ ⟨0, 0⟩) [] (sampleEngine 0 0)
      "class C" "ts" "greet" "oops").engine = [NativeCall.RunScriptSource "" 0 1 2] ∧
    (RunContractScript (envWith ⟨0, none, false⟩ ⟨0, 0⟩) [] (sampleEngine 0 0)
      "class C" "js" "greet" "oops").err = some Err.ErrArgumentsFormat := by
  decide

/-! ## Escaping -/

/-- The escape of one character by `formatArgs`. -/
theorem formatArgsChars_cons (c : Char) (s : List Char) :
    formatArgsChars (c :: s) =
      (if c = '\\' then ['\\', '\\']
        else if c = '\n' then ['\\', 'n']
        else if c = '\r' then ['\\', 'r']
        else if c = '"' then ['\\', '"']
        else [c]) ++ formatArgsChars s := by
  simp only [formatArgsChars, stringsReplace, List.flatMap_cons, List.flatMap_append]
  by_cases h1 : c = '\\'
  · subst h1; simp
  · by_cases h2 : c = '\n'
    · subst h2; simp
    · by_cases h3 : c = '\r'
      · subst h3; simp
      · by_cases h4 : c = '"'
        · subst h4; simp
        · simp [h1, h2, h3, h4]

/-- A character other than the backslash is read back as itself. -/
theorem unescapeChars_cons_of_ne (c : Char) (rest : List Char) (h : c ≠ '\\') :
    unescapeChars (c :: rest) = c :: unescapeChars rest := by
  rw [unescapeChars.eq_def]
  split <;> simp_all

/-- The decoder undoes `formatArgs`, on lists of characters. -/
theorem unescapeChars_formatArgsChars (s : List Char) :
    unescapeChars (formatArgsChars s) = s := by
  induction s with
  | nil => simp [formatArgsChars, stringsReplace, unescapeChars]
  | cons c s ih =>
    rw [formatArgsChars_cons]
    by_cases h1 : c = '\\'
    · subst h1; simp [unescapeChars, ih]
    · by_cases h2 : c = '\n'
      · subst h2; simp [unescapeChars, ih]
      · by_cases h3 : c = '\r'
        · subst h3; simp [unescapeChars, ih]
        · by_cases h4 : c = '"'
          · subst h4; simp [unescapeChars, ih]
          · simp only [h1, h2, h3, h4, if_false, List.singleton_append]
            rw [unescapeChars_cons_of_ne c _ h1, ih]

/-- C8: escaping round trip.  For every string `s`, decoding the escapes `\\`, `\n`,
`\r` and `\"` of `formatArgs s` gives `s` back. -/
theorem unescape_formatArgs (s : String) : unescape (formatArgs s) = s := by
  simp [unescape, formatArgs, unescapeChars_formatArgsChars]

/-! ## Naming policy of `Call` -/

/-- The case variants `init`, `Init`, `INIT` and `iNiT` equal `init` under
`strings.EqualFold`, whatever the Unicode fold table. -/
theorem EqualFold_init_variants (env : Env) :
    EqualFold env "init" "init" = true ∧ EqualFold env "init" "Init" = true ∧
    EqualFold env "init" "INIT" = true ∧ EqualFold env "init" "iNiT" = true :=
  ⟨rfl, rfl, rfl, rfl⟩

/-- C9: for every function name that the public-function-name pattern accepts and
that equals `init` under case-insensitive comparison, and for every source, source
type and arguments, `Call` returns the empty result and
`ErrDisallowCallPrivateFunction`, and leaves the engine and the cache as they were: no
module is registered and no script is run. -/
theorem Call_init_rejected (env : Env) (cache : LRU) (e : V8Engine)
    (source sourceType function args : String)
    (hpublic : env.PublicFuncNameChecker function = true)
    (hinit : EqualFold env "init" function = true) :
    Call env cache e source sourceType function args =
      ⟨cache, e, "", some Err.ErrDisallowCallPrivateFunction⟩ := by
  simp [Call, hpublic, hinit]

/-- Witness of C9: the name `iNiT` on a JavaScript source. -/
theorem Call_init_rejected_witness :
    Call (envWith ⟨0, none, false⟩ ⟨0, 0⟩) [] (sampleEngine 0 0) "class C" "js" "iNiT" "[]" =
      ⟨[], sampleEngine 0 0, "", some Err.ErrDisallowCallPrivateFunction⟩ :=
  Call_init_rejected (envWith ⟨0, none, false⟩ ⟨0, 0⟩) [] (sampleEngine 0 0) "class C" "js"
    "iNiT" "[]" (by decide) (by decide)

/-! ## Handle registry: the Global handle -/

/-- The empty registry satisfies the parity of handle ids. -/
theorem HandleParity_empty : HandleParity Registry.empty := by
  constructor
  · rfl
  · intro e he
    simp [Registry.empty] at he

/-- The function `NewV8Engine` keeps the parity of handle ids: the two ids it issues
are the next odd and the next even value of the counter, also across wrap-around. -/
theorem HandleParity_NewV8Engine (w : Registry) (ctx : Context) (created : CV8Engine)
    (h : HandleParity w) : HandleParity (NewV8Engine w ctx created).1 := by
  obtain ⟨hidx, hheap⟩ := h
  constructor
  · simp only [NewV8Engine, u64]
    omega
  · intro e he
    simp only [NewV8Engine, List.mem_append, List.mem_singleton] at he
    rcases he with he | he
    · exact hheap e he
    · subst he
      simp only [u64]
      omega

/-- The method `Dispose` keeps the parity of handle ids. -/
theorem HandleParity_Dispose (w : Registry) (p : Nat) (h : HandleParity w) :
    HandleParity (Dispose w p) := by
  obtain ⟨hidx, hheap⟩ := h
  unfold Dispose
  cases hp : w.heap[p]? with
  | none => exact ⟨hidx, hheap⟩
  | some e =>
    refine ⟨hidx, ?_⟩
    intro e1 he1
    rcases List.mem_or_eq_of_mem_set he1 with he1 | he1
    · exact hheap e1 he1
    · subst he1
      exact hheap e (List.getElem?_mem hp)

/-- Every reachable registry satisfies the parity of handle ids. -/
theorem Reachable.handleParity {w : Registry} (hw : Reachable w) : HandleParity w := by
  induction hw with
  | empty => exact HandleParity_empty
  | newEngine w ctx created _ ih => exact HandleParity_NewV8Engine w ctx created ih
  | dispose w p _ _ ih => exact HandleParity_Dispose w p ih

/-- C7: in every registry state reached by calls of `NewV8Engine` and `Dispose`, and
for every engine `e` created by `NewV8Engine`, `getEngineByStorageHandler(e.gcsHandler)`
returns `(nil, nil)`. -/
theorem getEngineByStorageHandler_global (w : Registry) (hw : Reachable w) (e : V8Engine)
    (he : e ∈ w.heap) : getEngineByStorageHandler w e.gcsHandler = (none, none) := by
  obtain ⟨_, hheap⟩ := hw.handleParity
  have hg := (hheap e he).2
  unfold getEngineByStorageHandler
  cases hs : w.storages e.gcsHandler with
  | none => rfl
  | some p =>
    cases hp : w.heap[p]? with
    | none => simp only [hp]
    | some engine =>
      have hl := (hheap engine (List.getElem?_mem hp)).1
      have hne : engine.lcsHandler ≠ e.gcsHandler := by omega
      simp only [hp, if_neg hne, ite_self]

/-- Witness of C7: two engines are created and the first one is disposed; the Global
handle of the second engine, which is live, resolves to nothing. -/
theorem getEngineByStorageHandler_global_witness :
    getEngineByStorageHandler
      (Dispose (NewV8Engine (NewV8Engine Registry.empty sampleContext sampleNative).1
        sampleContext { sampleNative with addr := 128 }).1 0) 4 = (none, none) :=
  getEngineByStorageHandler_global
    (Dispose (NewV8Engine (NewV8Engine Registry.empty sampleContext sampleNative).1
      sampleContext { sampleNative with addr := 128 }).1 0)
    (Reachable.dispose _ 0
      (Reachable.newEngine _ _ _ (Reachable.newEngine _ _ _ Reachable.empty)) (by decide))
    { sampleEngine 0 0 with
      v8engine := { sampleNative with addr := 128 }, lcsHandler := 3, gcsHandler := 4 }
    (by decide)

/-! ## Instrumentation cache -/

/-- After `Add`, the key resolves to the value added: the entry is at the front and the
eviction, which removes the oldest entry of a cache of more than 40960 entries, does
not reach it. -/
theorem LRU.lookup_Add (c : LRU) (key : String) (value : sourceModuleItem) :
    List.lookup key (c.Add key value) = some value := by
  unfold LRU.Add
  cases hl : List.lookup key c with
  | some v => simp [List.lookup_cons]
  | none =>
    simp only
    split
    · next hlen =>
      cases c with
      | nil => simp [sourceModuleCacheSize] at hlen
      | cons x xs => simp [List.dropLast, List.lookup_cons]
    · simp [List.lookup_cons]

/-- A cache hit of `AddModule`: the cached traceable source is registered, the entry
moves to the front, and the engine is otherwise untouched. -/
theorem AddModule_hit (env : Env) (cache : LRU) (e : V8Engine) (id source : String)
    (off : Int) (item : sourceModuleItem) (hl : e.enableLimits = true)
    (hc : List.lookup (env.sourceHash source) cache = some item) :
    AddModule env cache e id source off =
      ((env.sourceHash source, item) :: cache.filter (fun kv => kv.1 ≠ env.sourceHash source),
        { e with modules :=
            ⟨id, item.traceableSource, item.traceableSourceLineOffset⟩ :: e.modules },
        none) := by
  simp [AddModule, hl, LRU.Contains, LRU.Get, hc, Modules.Add]

/-- A cache miss of `AddModule` on which the instrumenter succeeds: the instrumenter is
called once, its output is cached and registered. -/
theorem AddModule_miss_ok (env : Env) (cache : LRU) (e : V8Engine) (id source : String)
    (off : Int) (ts : String) (lo : Int) (hl : e.enableLimits = true)
    (hc : List.lookup (env.sourceHash source) cache = none)
    (hi : env.InjectTracingInstructions e.v8engine source
      e.strictDisallowUsageOfInstructionCounter = some (ts, lo)) :
    AddModule env cache e id source off =
      (cache.Add (env.sourceHash source) ⟨source, off, ts, lo⟩,
        { e with
          v8engine := e.v8engine.called
            (NativeCall.InjectTracingInstructions source e.strictDisallowUsageOfInstructionCounter)
          modules := ⟨id, ts, lo⟩ :: e.modules },
        none) := by
  simp [AddModule, hl, LRU.Contains, hc, InjectTracingInstructions, hi, Modules.Add]

/-- A cache miss of `AddModule` on which the instrumenter fails: the instrumenter is
called, nothing is cached and no module is registered. -/
theorem AddModule_miss_failed (env : Env) (cache : LRU) (e : V8Engine) (id source : String)
    (off : Int) (hl : e.enableLimits = true)
    (hc : List.lookup (env.sourceHash source) cache = none)
    (hi : env.InjectTracingInstructions e.v8engine source
      e.strictDisallowUsageOfInstructionCounter = none) :
    AddModule env cache e id source off =
      (cache,
        { e with
          v8engine := e.v8engine.called
            (NativeCall.InjectTracingInstructions source e.strictDisallowUsageOfInstructionCounter) },
        some Err.ErrInjectTracingInstructionFailed) := by
  simp [AddModule, hl, LRU.Contains, hc, InjectTracingInstructions, hi]

/-- C10 fails as stated: on the source `)`, which the instrumenter rejects, nothing is
cached by the first `AddModule`, the second `AddModule` invokes the instrumenter
again, and neither call registers a module. -/
theorem AddModule_failed_source_instrumented_twice :
    (sampleEngine 0 0).enableLimits = true ∧
    (AddModule (envWith ⟨0, none, false⟩ ⟨0, 0⟩) [] (sampleEngine 0 0) "contract.js" ")" 0).1 = [] ∧
    injections (AddModule (envWith ⟨0, none, false⟩ ⟨0, 0⟩)
      (AddModule (envWith ⟨0, none, false⟩ ⟨0, 0⟩) [] (sampleEngine 0 0) "contract.js" ")" 0).1
      (AddModule (envWith ⟨0, none, false⟩ ⟨0, 0⟩) [] (sampleEngine 0 0) "contract.js" ")" 0).2.1
      "contract.js" ")" 0).2.1 =
      [NativeCall.InjectTracingInstructions ")" 1, NativeCall.InjectTracingInstructions ")" 1] ∧
    (AddModule (envWith ⟨0, none, false⟩ ⟨0, 0⟩)
      (AddModule (envWith ⟨0, none, false⟩ ⟨0, 0⟩) [] (sampleEngine 0 0) "contract.js" ")" 0).1
      (AddModule (envWith ⟨0, none, false⟩ ⟨0, 0⟩) [] (sampleEngine 0 0) "contract.js" ")" 0).2.1
      "contract.js" ")" 0).2.1.modules = [] := by
  decide

/-- C10, amended: with limits enabled, for every raw source `s` on which a first
`AddModule` succeeds.  The first call leaves a cache entry for `s` and registers the
traceable source and line offset of that entry; the entry is the one the cache already
held, and then the instrumenter is not invoked, or else it is made of the output of the
instrumenter on `s`, invoked exactly once.  Every later `AddModule` with `s`, on the
same or on another engine and on any cache that still holds that entry, succeeds,
registers the same traceable source and line offset, leaves the native instance
untouched, so the instrumenter is not invoked, and keeps the entry in the cache. -/
theorem AddModule_twice (env : Env) (cache : LRU) (e1 : V8Engine) (id1 s : String)
    (off1 : Int) (h1 : e1.enableLimits = true)
    (hok : (AddModule env cache e1 id1 s off1).2.2 = none) :
    ∃ item : sourceModuleItem,
      List.lookup (env.sourceHash s) (AddModule env cache e1 id1 s off1).1 = some item ∧
      (AddModule env cache e1 id1 s off1).2.1.modules =
        ⟨id1, item.traceableSource, item.traceableSourceLineOffset⟩ :: e1.modules ∧
      ((List.lookup (env.sourceHash s) cache = some item ∧
          (AddModule env cache e1 id1 s off1).2.1.v8engine = e1.v8engine) ∨
        (List.lookup (env.sourceHash s) cache = none ∧
          env.InjectTracingInstructions e1.v8engine s
              e1.strictDisallowUsageOfInstructionCounter =
            some (item.traceableSource, item.traceableSourceLineOffset) ∧
          item.source = s ∧ item.sourceLineOffset = off1 ∧
          (AddModule env cache e1 id1 s off1).2.1.v8engine =
            e1.v8engine.called
              (NativeCall.InjectTracingInstructions s
                e1.strictDisallowUsageOfInstructionCounter))) ∧
      ∀ (cache2 : LRU) (e2 : V8Engine) (id2 : String) (off2 : Int),
        e2.enableLimits = true →
        List.lookup (env.sourceHash s) cache2 = some item →
        (AddModule env cache2 e2 id2 s off2).2.2 = none ∧
        (AddModule env cache2 e2 id2 s off2).2.1.modules =
          ⟨id2, item.traceableSource, item.traceableSourceLineOffset⟩ :: e2.modules ∧
        (AddModule env cache2 e2 id2 s off2).2.1.v8engine = e2.v8engine ∧
        injections (AddModule env cache2 e2 id2 s off2).2.1 = injections e2 ∧
        List.lookup (env.sourceHash s) (AddModule env cache2 e2 id2 s off2).1 = some item := by
  have hfront : ∀ (c : LRU) (item : sourceModuleItem),
      List.lookup (env.sourceHash s)
        ((env.sourceHash s, item) :: c.filter (fun kv => kv.1 ≠ env.sourceHash s)) =
        some item := by
    intro c item
    simp [List.lookup_cons]
  have hsecond : ∀ (item : sourceModuleItem) (cache2 : LRU) (e2 : V8Engine) (id2 : String)
      (off2 : Int), e2.enableLimits = true →
      List.lookup (env.sourceHash s) cache2 = some item →
      (AddModule env cache2 e2 id2 s off2).2.2 = none ∧
      (AddModule env cache2 e2 id2 s off2).2.1.modules =
        ⟨id2, item.traceableSource, item.traceableSourceLineOffset⟩ :: e2.modules ∧
      (AddModule env cache2 e2 id2 s off2).2.1.v8engine = e2.v8engine ∧
      injections (AddModule env cache2 e2 id2 s off2).2.1 = injections e2 ∧
      List.lookup (env.sourceHash s) (AddModule env cache2 e2 id2 s off2).1 = some item := by
    intro item cache2 e2 id2 off2 h2 hc2
    rw [AddModule_hit env cache2 e2 id2 s off2 item h2 hc2]
    exact ⟨rfl, rfl, rfl, rfl, hfront cache2 item⟩
  cases hc : List.lookup (env.sourceHash s) cache with
  | some item =>
    refine ⟨item, ?_, ?_, Or.inl ⟨rfl, ?_⟩, hsecond item⟩
    · rw [AddModule_hit env cache e1 id1 s off1 item h1 hc]
      exact hfront cache item
    · rw [AddModule_hit env cache e1 id1 s off1 item h1 hc]
    · rw [AddModule_hit env cache e1 id1 s off1 item h1 hc]
  | none =>
    cases hi : env.InjectTracingInstructions e1.v8engine s
        e1.strictDisallowUsageOfInstructionCounter with
    | none =>
      rw [AddModule_miss_failed env cache e1 id1 s off1 h1 hc hi] at hok
      simp at hok
    | some v =>
      obtain ⟨ts, lo⟩ := v
      refine ⟨⟨s, off1, ts, lo⟩, ?_, ?_, Or.inr ⟨rfl, rfl, rfl, rfl, ?_⟩,
        hsecond ⟨s, off1, ts, lo⟩⟩
      · rw [AddModule_miss_ok env cache e1 id1 s off1 ts lo h1 hc hi]
        exact LRU.lookup_Add _ _ _
      · rw [AddModule_miss_ok env cache e1 id1 s off1 ts lo h1 hc hi]
      · rw [AddModule_miss_ok env cache e1 id1 s off1 ts lo h1 hc hi]

/-- Witness of the amended C10: the source `class C` is added on an empty cache, then
the source `class D`, which moves the entry of `class C` behind its own; a further
`AddModule` with `class C` on a fresh engine registers the output of the one
instrumentation of `class C` and makes no native call. -/
theorem AddModule_twice_witness :
    (AddModule (envWith ⟨0, none, false⟩ ⟨0, 0⟩)
      (AddModule (envWith ⟨0, none, false⟩ ⟨0, 0⟩)
        (AddModule (envWith ⟨0, none, false⟩ ⟨0, 0⟩) [] (sampleEngine 0 0) "contract.js" "class C" 0).1
        (sampleEngine 0 0) "contract.js" "class D" 0).1
      (sampleEngine 0 0) "contract.js" "class C" 0).2.1.modules =
      [⟨"contract.js", "_instruction_counter.incr(1);class C", 1⟩] ∧
    (AddModule (envWith ⟨0, none, false⟩ ⟨0, 0⟩)
      (AddModule (envWith ⟨0, none, false⟩ ⟨0, 0⟩)
        (AddModule (envWith ⟨0, none, false⟩ ⟨0, 0⟩) [] (sampleEngine 0 0) "contract.js" "class C" 0).1
        (sampleEngine 0 0) "contract.js" "class D" 0).1
      (sampleEngine 0 0) "contract.js" "class C" 0).2.1.v8engine = sampleNative := by
  obtain ⟨item, hlook, _, _, hsecond⟩ :=
    AddModule_twice (envWith ⟨0, none, false⟩ ⟨0, 0⟩) [] (sampleEngine 0 0) "contract.js" "class C" 0
      (by decide) (by decide)
  have hvalue : List.lookup ((envWith ⟨0, none, false⟩ ⟨0, 0⟩).sourceHash "class C")
      (AddModule (envWith ⟨0, none, false⟩ ⟨0, 0⟩) [] (sampleEngine 0 0) "contract.js" "class C" 0).1 =
      some ⟨"class C", 0, "_instruction_counter.incr(1);class C", 1⟩ := by decide
  rw [hvalue] at hlook
  have hitem := Option.some.inj hlook
  subst hitem
  obtain ⟨_, hmodules, hnative, _, _⟩ := hsecond
    (AddModule (envWith ⟨0, none, false⟩ ⟨0, 0⟩)
      (AddModule (envWith ⟨0, none, false⟩ ⟨0, 0⟩) [] (sampleEngine 0 0) "contract.js" "class C" 0).1
      (sampleEngine 0 0) "contract.js" "class D" 0).1
    (sampleEngine 0 0) "contract.js" 0 (by decide) (by decide)
  exact ⟨hmodules, hnative⟩

/-! ## Reported instruction count -/

/-- The instruction count reported after `RunScriptSource`: the ceiling when the
measured count exceeds it or the memory verdict fired, the measured count
otherwise. -/
theorem RunScriptSource_count (env : Env) (e : V8Engine) (source : String) (off : Int) :
    ExecutionInstructions (RunScriptSource env e source off).1 =
      if (measured env e source off).count_of_executed_instructions >
            e.limitsOfExecutionInstructions ∨
          (RunScriptSource env e source off).2.2 = some Err.ErrExceedMemoryLimits then
        e.limitsOfExecutionInstructions
      else (measured env e source off).count_of_executed_instructions := by
  simp only [ExecutionInstructions, RunScriptSource]
  rw [apply_ite V8Engine.actualCountOfExecutionInstructions]
  rfl

/-- The method `RunScriptSource` leaves both ceilings of the engine as they were. -/
theorem RunScriptSource_limits (env : Env) (e : V8Engine) (source : String) (off : Int) :
    (RunScriptSource env e source off).1.limitsOfExecutionInstructions =
      e.limitsOfExecutionInstructions ∧
    (RunScriptSource env e source off).1.limitsOfTotalMemorySize =
      e.limitsOfTotalMemorySize := by
  simp only [RunScriptSource]
  rw [apply_ite V8Engine.limitsOfExecutionInstructions,
    apply_ite V8Engine.limitsOfTotalMemorySize]
  exact ⟨ite_self _, ite_self _⟩

/-- C11: whenever `RunScriptSource` returns `ErrExceedMemoryLimits`, the count reported
afterwards by `ExecutionInstructions()` is exactly the configured instruction ceiling,
whatever the measured count. -/
theorem ExecutionInstructions_on_memory_verdict (env : Env) (e : V8Engine) (source : String)
    (off : Int)
    (hmem : (RunScriptSource env e source off).2.2 = some Err.ErrExceedMemoryLimits) :
    ExecutionInstructions (RunScriptSource env e source off).1 =
      e.limitsOfExecutionInstructions := by
  rw [RunScriptSource_count, if_pos (Or.inr hmem)]

/-- Witness of C11: instruction ceiling 100 with 50 instructions measured, memory
ceiling 6000000 with 7000000 measured; the count reported is 100. -/
theorem ExecutionInstructions_on_memory_verdict_witness :
    ExecutionInstructions (RunScriptSource (envWith ⟨0, none, false⟩ ⟨50, 7000000⟩)
      (sampleEngine 100 6000000) "x" 0).1 = 100 :=
  ExecutionInstructions_on_memory_verdict (envWith ⟨0, none, false⟩ ⟨50, 7000000⟩)
    (sampleEngine 100 6000000) "x" 0 (by decide)

/-- C12: after every `RunScriptSource` call, whatever the run outcome, the measured
statistics and the ceilings, `ExecutionInstructions()` is at most the instruction
ceiling of the engine; it is the measured count whenever the measured count is at most
the ceiling and the memory verdict did not fire. -/
theorem ExecutionInstructions_le_ceiling (env : Env) (e : V8Engine) (source : String)
    (off : Int) :
    ExecutionInstructions (RunScriptSource env e source off).1 ≤
      (RunScriptSource env e source off).1.limitsOfExecutionInstructions ∧
    ((measured env e source off).count_of_executed_instructions ≤
        e.limitsOfExecutionInstructions →
      (RunScriptSource env e source off).2.2 ≠ some Err.ErrExceedMemoryLimits →
      ExecutionInstructions (RunScriptSource env e source off).1 =
        (measured env e source off).count_of_executed_instructions) := by
  rw [RunScriptSource_count, (RunScriptSource_limits env e source off).1]
  constructor
  · split
    · exact Nat.le_refl _
    · next h => omega
  · intro hle hne
    rw [if_neg]
    rintro (h | h)
    · omega
    · exact hne h

/-- Witness of C12: ceiling 100 and 50 instructions measured within the memory
ceiling; the count reported is the measured one. -/
theorem ExecutionInstructions_le_ceiling_witness :
    ExecutionInstructions (RunScriptSource (envWith ⟨0, none, false⟩ ⟨50, 0⟩)
      (sampleEngine 100 0) "x" 0).1 = 50 :=
  (ExecutionInstructions_le_ceiling (envWith ⟨0, none, false⟩ ⟨50, 0⟩) (sampleEngine 100 0)
    "x" 0).2 (by decide) (by decide)

/-! ## A ceiling of 0 -/

/-- C17: with instruction ceiling 0 `RunScriptSource` never returns
`ErrInsufficientGas`, with memory ceiling 0 it never returns `ErrExceedMemoryLimits`,
and with both ceilings 0 it returns the error of the run outcome: `ErrExecutionTimeout`
when the deadline elapsed, else `ErrExecutionFailed` for a nonzero status, else
`nil`. -/
theorem RunScriptSource_zero_ceilings (env : Env) (e : V8Engine) (source : String)
    (off : Int) :
    (e.limitsOfExecutionInstructions = 0 →
      (RunScriptSource env e source off).2.2 ≠ some Err.ErrInsufficientGas) ∧
    (e.limitsOfTotalMemorySize = 0 →
      (RunScriptSource env e source off).2.2 ≠ some Err.ErrExceedMemoryLimits) ∧
    (e.limitsOfExecutionInstructions = 0 → e.limitsOfTotalMemorySize = 0 →
      (RunScriptSource env e source off).2.2 =
        if (env.RunScriptSource e.v8engine source off e.lcsHandler e.gcsHandler).timedOut then
          some Err.ErrExecutionTimeout
        else if (env.RunScriptSource e.v8engine source off e.lcsHandler e.gcsHandler).ret ≠ 0
        then some Err.ErrExecutionFailed
        else none) := by
  rw [RunScriptSource_err]
  refine ⟨?_, ?_, ?_⟩
  · intro h0
    rw [if_neg (by omega)]
    repeat' split
    all_goals simp
  · intro h0
    split
    · simp
    · rw [if_neg (by omega)]
      repeat' split
      all_goals simp
  · intro hi hm
    rw [if_neg (by omega), if_neg (by omega)]

/-- Witness of C17: both ceilings 0, a run that failed with status 1 while 1000000
instructions and 9000000 bytes were measured; the error is `ErrExecutionFailed`. -/
theorem RunScriptSource_zero_ceilings_witness :
    (RunScriptSource (envWith ⟨1, none, false⟩ ⟨1000000, 9000000⟩) (sampleEngine 0 0)
      "x" 0).2.2 = some Err.ErrExecutionFailed :=
  ((RunScriptSource_zero_ceilings (envWith ⟨1, none, false⟩ ⟨1000000, 9000000⟩)
    (sampleEngine 0 0) "x" 0).2.2 (by decide) (by decide)).trans (by decide)

/-! ## Rejected ceilings are stored -/

/-- C19: for every pair `(i, m)`, rejected or not, after `SetExecutionLimits(i, m)` the
ceilings stored in the engine (and in the native instance) are `i` and `m`, and they
are the ones from which a later `RunScriptSource` derives its verdict. -/
theorem SetExecutionLimits_stores (env : Env) (e : V8Engine) (i m : Nat) (source : String)
    (off : Int) :
    (SetExecutionLimits e i m).1.limitsOfExecutionInstructions = i ∧
    (SetExecutionLimits e i m).1.limitsOfTotalMemorySize = m ∧
    (SetExecutionLimits e i m).1.v8engine.limits_of_executed_instructions = i ∧
    (SetExecutionLimits e i m).1.v8engine.limits_of_total_memory_size = m ∧
    (RunScriptSource env (SetExecutionLimits e i m).1 source off).2.2 =
      if i > 0 ∧ i < (measured env (SetExecutionLimits e i m).1 source off).count_of_executed_instructions
      then some Err.ErrInsufficientGas
      else if m > 0 ∧ m < (measured env (SetExecutionLimits e i m).1 source off).total_memory_size
      then some Err.ErrExceedMemoryLimits
      else if (env.RunScriptSource (SetExecutionLimits e i m).1.v8engine source off
          e.lcsHandler e.gcsHandler).timedOut then some Err.ErrExecutionTimeout
      else if (env.RunScriptSource (SetExecutionLimits e i m).1.v8engine source off
          e.lcsHandler e.gcsHandler).ret ≠ 0 then some Err.ErrExecutionFailed
      else none := by
  have hl : (SetExecutionLimits e i m).1.limitsOfExecutionInstructions = i := by
    unfold SetExecutionLimits; repeat' split
    all_goals rfl
  have hm : (SetExecutionLimits e i m).1.limitsOfTotalMemorySize = m := by
    unfold SetExecutionLimits; repeat' split
    all_goals rfl
  have hlcs : (SetExecutionLimits e i m).1.lcsHandler = e.lcsHandler := by
    unfold SetExecutionLimits; repeat' split
    all_goals rfl
  have hgcs : (SetExecutionLimits e i m).1.gcsHandler = e.gcsHandler := by
    unfold SetExecutionLimits; repeat' split
    all_goals rfl
  refine ⟨hl, hm, ?_, ?_, ?_⟩
  · unfold SetExecutionLimits; repeat' split
    all_goals rfl
  · unfold SetExecutionLimits; repeat' split
    all_goals rfl
  · rw [RunScriptSource_err, hl, hm, hlcs, hgcs]

/-! ## Handle registry: disposal -/

/-- C13: for every registry state and every registered engine `e`, after `e.Dispose()`
the map `storages` has no entry for `e.lcsHandler` nor for `e.gcsHandler` and the map
`engines` has no entry for the native identity of `e`, so that both lookups find
nothing; every other registered engine is registered as before. -/
theorem Dispose_unregisters (w : Registry) (p : Nat) (e : V8Engine)
    (hreg : Registered w p e) :
    (Dispose w p).storages e.lcsHandler = none ∧
    (Dispose w p).storages e.gcsHandler = none ∧
    (Dispose w p).engines e.v8engine.addr = none ∧
    getEngineByStorageHandler (Dispose w p) e.lcsHandler = (none, none) ∧
    getEngineByStorageHandler (Dispose w p) e.gcsHandler = (none, none) ∧
    getEngineByEngineHandler (Dispose w p) e.v8engine.addr = none ∧
    ∀ q e2, q ≠ p → Registered w q e2 → Registered (Dispose w p) q e2 := by
  obtain ⟨hheap, hlcs, hgcs, haddr⟩ := hreg
  have hl : (Dispose w p).storages e.lcsHandler = none := by
    simp only [Dispose, hheap, Function.update]
    split <;> simp
  have hg : (Dispose w p).storages e.gcsHandler = none := by
    simp [Dispose, hheap]
  have ha : (Dispose w p).engines e.v8engine.addr = none := by
    simp [Dispose, hheap]
  refine ⟨hl, hg, ha, ?_, ?_, ha, ?_⟩
  · simp only [getEngineByStorageHandler, hl]
  · simp only [getEngineByStorageHandler, hg]
  · rintro q e2 hq ⟨hheap2, hlcs2, hgcs2, haddr2⟩
    have hne : some q ≠ some p := fun h => hq (Option.some.inj h)
    have h1 : e2.lcsHandler ≠ e.lcsHandler := fun h => hne (by rw [← hlcs2, h, hlcs])
    have h2 : e2.lcsHandler ≠ e.gcsHandler := fun h => hne (by rw [← hlcs2, h, hgcs])
    have h3 : e2.gcsHandler ≠ e.lcsHandler := fun h => hne (by rw [← hgcs2, h, hlcs])
    have h4 : e2.gcsHandler ≠ e.gcsHandler := fun h => hne (by rw [← hgcs2, h, hgcs])
    have h5 : e2.v8engine.addr ≠ e.v8engine.addr := fun h => hne (by rw [← haddr2, h, haddr])
    refine ⟨?_, ?_, ?_, ?_⟩
    · simp only [Dispose, hheap]
      rw [List.getElem?_set_ne (Ne.symm hq)]
      exact hheap2
    · simp [Dispose, hheap, Function.update, h1, h2, hlcs2]
    · simp [Dispose, hheap, Function.update, h3, h4, hgcs2]
    · simp [Dispose, hheap, Function.update, h5, haddr2]

/-- Witness of C13: of two engines created on the empty registry the first is
disposed; its handles 1 and 2 and its native identity are gone, and the second
engine, of handles 3 and 4, is registered as before. -/
theorem Dispose_unregisters_witness :
    getEngineByStorageHandler
      (Dispose (NewV8Engine (NewV8Engine Registry.empty sampleContext sampleNative).1
        sampleContext { sampleNative with addr := 128 }).1 0) 1 = (none, none) ∧
    getEngineByStorageHandler
      (Dispose (NewV8Engine (NewV8Engine Registry.empty sampleContext sampleNative).1
        sampleContext { sampleNative with addr := 128 }).1 0) 3 = (some 1, some 7) :=
  ⟨(Dispose_unregisters
      (NewV8Engine (NewV8Engine Registry.empty sampleContext sampleNative).1
        sampleContext { sampleNative with addr := 128 }).1 0 (sampleEngine 0 0)
      ⟨by decide, by decide, by decide, by decide⟩).2.2.2.1,
    by decide⟩

/-! ## Handle registry: the ids issued -/

/-- The heap after `NewV8Engine`: the engines allocated before, then the new one. -/
theorem NewV8Engine_heap (w : Registry) (ctx : Context) (created : CV8Engine) :
    ∃ e, (NewV8Engine w ctx created).1.heap = w.heap ++ [e] ∧
      e.lcsHandler = u64 (w.storagesIdx + 1) ∧
      e.gcsHandler = u64 (u64 (w.storagesIdx + 1) + 1) ∧
      e.ctx = ctx :=
  ⟨_, rfl, rfl, rfl, rfl⟩

/-- The empty registry has issued no handle id. -/
theorem HandleIds_empty : HandleIds Registry.empty := by
  constructor
  · rfl
  · intro i e h
    simp [Registry.empty] at h

/-- The function `NewV8Engine` issues the next two values of the counter. -/
theorem HandleIds_NewV8Engine (w : Registry) (ctx : Context) (created : CV8Engine)
    (h : HandleIds w) : HandleIds (NewV8Engine w ctx created).1 := by
  obtain ⟨hidx, hheap⟩ := h
  obtain ⟨e, hh, hl, hg, _⟩ := NewV8Engine_heap w ctx created
  constructor
  · have : (NewV8Engine w ctx created).1.storagesIdx = u64 (u64 (w.storagesIdx + 1) + 1) := rfl
    rw [this, hh, hidx]
    simp only [u64, List.length_append, List.length_singleton]
    omega
  · intro i e1 hi
    rw [hh] at hi
    by_cases hlt : i < w.heap.length
    · rw [List.getElem?_append_left hlt] at hi
      exact hheap i e1 hi
    · have hge : w.heap.length ≤ i := Nat.le_of_not_lt hlt
      rw [List.getElem?_append_right hge] at hi
      have hlen : i - w.heap.length = 0 := by
        by_contra hne
        rw [List.getElem?_eq_none (by simp; omega)] at hi
        exact Option.noConfusion hi
      rw [hlen] at hi
      simp only [List.getElem?_cons_zero, Option.some.injEq] at hi
      subst hi
      have hi2 : i = w.heap.length := by omega
      rw [hl, hg, hidx, hi2]
      simp only [u64]
      omega

/-- The method `Dispose` changes no handle id. -/
theorem HandleIds_Dispose (w : Registry) (p : Nat) (h : HandleIds w) :
    HandleIds (Dispose w p) := by
  obtain ⟨hidx, hheap⟩ := h
  unfold Dispose
  cases hp : w.heap[p]? with
  | none => exact ⟨hidx, hheap⟩
  | some e =>
    refine ⟨by simpa using hidx, ?_⟩
    intro i e1 hi
    simp only at hi
    by_cases hpi : p = i
    · subst hpi
      rw [List.getElem?_set_self (List.getElem?_eq_some.mp hp).1] at hi
      simp only [Option.some.injEq] at hi
      subst hi
      exact hheap p e hp
    · rw [List.getElem?_set_ne hpi] at hi
      exact hheap i e1 hi

/-- Every reachable registry has issued its handle ids in the order of the counter. -/
theorem Reachable.handleIds {w : Registry} (hw : Reachable w) : HandleIds w := by
  induction hw with
  | empty => exact HandleIds_empty
  | newEngine w ctx created _ ih => exact HandleIds_NewV8Engine w ctx created ih
  | dispose w p _ _ ih => exact HandleIds_Dispose w p ih

/-- C14: over every sequence of `NewV8Engine` and `Dispose` calls without wrap-around
of the 64-bit counter, every handle id issued is nonzero, the Global id of an engine is
its Local id plus one, ids strictly increase in creation order, and the ids of two
different engines, disposed or not, are pairwise distinct. -/
theorem handle_ids_unique (w : Registry) (hw : Reachable w)
    (hnowrap : 2 * w.heap.length < 2 ^ 64) (i j : Nat) (ei ej : V8Engine)
    (hi : w.heap[i]? = some ei) (hj : w.heap[j]? = some ej) :
    ei.lcsHandler ≠ 0 ∧ ei.gcsHandler ≠ 0 ∧ ei.gcsHandler = ei.lcsHandler + 1 ∧
    (i < j → ei.gcsHandler < ej.lcsHandler) ∧
    (i ≠ j → ei.lcsHandler ≠ ej.lcsHandler ∧ ei.lcsHandler ≠ ej.gcsHandler ∧
      ei.gcsHandler ≠ ej.lcsHandler ∧ ei.gcsHandler ≠ ej.gcsHandler) := by
  obtain ⟨_, hheap⟩ := hw.handleIds
  obtain ⟨hil, hig⟩ := hheap i ei hi
  obtain ⟨hjl, hjg⟩ := hheap j ej hj
  have hilen : i < w.heap.length := (List.getElem?_eq_some.mp hi).1
  have hjlen : j < w.heap.length := (List.getElem?_eq_some.mp hj).1
  simp only [u64] at hil hig hjl hjg
  rw [Nat.mod_eq_of_lt (by omega)] at hil hig hjl hjg
  omega

/-- Witness of C14: two engines are created and the first is disposed; the ids are
1, 2 for the first and 3, 4 for the second. -/
theorem handle_ids_unique_witness :
    (1 : Nat) ≠ 0 ∧ (2 : Nat) ≠ 0 ∧ (2 : Nat) = 1 + 1 ∧ ((0 : Nat) < 1 → (2 : Nat) < 3) ∧
    ((0 : Nat) ≠ 1 → (1 : Nat) ≠ 3 ∧ (1 : Nat) ≠ 4 ∧ (2 : Nat) ≠ 3 ∧ (2 : Nat) ≠ 4) :=
  handle_ids_unique
    (Dispose (NewV8Engine (NewV8Engine Registry.empty sampleContext sampleNative).1
      sampleContext { sampleNative with addr := 128 }).1 0)
    (Reachable.dispose _ 0
      (Reachable.newEngine _ _ _ (Reachable.newEngine _ _ _ Reachable.empty)) (by decide))
    (by decide) 0 1
    { sampleEngine 0 0 with v8engine := sampleNative.called NativeCall.DeleteEngine }
    { sampleEngine 0 0 with
      v8engine := { sampleNative with addr := 128 }, lcsHandler := 3, gcsHandler := 4 }
    (by decide) (by decide)

/-! ## Handle registry: the Local handle -/

/-- A registry state with a history is reachable. -/
theorem History.reachable {w : Registry} {d : List Nat} (h : History w d) : Reachable w := by
  induction h with
  | empty => exact Reachable.empty
  | newEngine w d ctx created _ ih => exact Reachable.newEngine w ctx created ih
  | dispose w d p _ hp ih => exact Reachable.dispose w p ih hp

/-- Without wrap-around of the counter, the Local handle id of every engine created
and not yet disposed is a key of `storages` whose entry points to that engine. -/
theorem History.live_local {w : Registry} {d : List Nat} (h : History w d) :
    2 * w.heap.length < 2 ^ 64 →
    ∀ p e, w.heap[p]? = some e → p ∉ d → w.storages e.lcsHandler = some p := by
  induction h with
  | empty =>
    intro _ p e hp
    simp [Registry.empty] at hp
  | newEngine w d ctx created hist ih =>
    intro hnowrap p e hp hd
    obtain ⟨hidx, hids⟩ := hist.reachable.handleIds
    obtain ⟨e0, hh, hl, hg, _⟩ := NewV8Engine_heap w ctx created
    have hlen : 2 * (w.heap.length + 1) < 2 ^ 64 := by
      rw [hh] at hnowrap; simpa using hnowrap
    have hst : (NewV8Engine w ctx created).1.storages =
        Function.update (Function.update w.storages (u64 (w.storagesIdx + 1))
          (some w.heap.length)) (u64 (u64 (w.storagesIdx + 1) + 1)) (some w.heap.length) := rfl
    have hl0 : u64 (w.storagesIdx + 1) = 2 * w.heap.length + 1 := by
      rw [hidx]; simp only [u64]; omega
    have hg0 : u64 (u64 (w.storagesIdx + 1) + 1) = 2 * w.heap.length + 2 := by
      rw [hl0]; simp only [u64]; omega
    rw [hst, hg0, hl0]
    rw [hh] at hp
    by_cases hlt : p < w.heap.length
    · rw [List.getElem?_append_left hlt] at hp
      have hel := (hids p e hp).1
      simp only [u64] at hel
      rw [Nat.mod_eq_of_lt (by omega)] at hel
      rw [Function.update_noteq (by omega), Function.update_noteq (by omega)]
      exact ih (by omega) p e hp hd
    · have hge : w.heap.length ≤ p := Nat.le_of_not_lt hlt
      rw [List.getElem?_append_right hge] at hp
      have hzero : p - w.heap.length = 0 := by
        by_contra hne
        rw [List.getElem?_eq_none (by simp; omega)] at hp
        exact Option.noConfusion hp
      rw [hzero] at hp
      simp only [List.getElem?_cons_zero, Option.some.injEq] at hp
      subst hp
      have hp2 : p = w.heap.length := by omega
      rw [hl, hl0, Function.update_noteq (by omega), Function.update_same, hp2]
  | dispose w d q hist hq ih =>
    intro hnowrap p e hp hd
    obtain ⟨_, hids⟩ := hist.reachable.handleIds
    have hpq : p ≠ q := fun h => hd (by simp [h])
    have hpd : p ∉ d := fun h => hd (List.mem_cons_of_mem _ h)
    obtain ⟨eq, heq⟩ : ∃ eq, w.heap[q]? = some eq := by
      rw [List.getElem?_eq_getElem hq]; exact ⟨_, rfl⟩
    have hlen : (Dispose w q).heap.length = w.heap.length := by
      simp [Dispose, heq]
    rw [hlen] at hnowrap
    have hp1 : w.heap[p]? = some e := by
      have : (Dispose w q).heap = w.heap.set q
          { eq with v8engine := eq.v8engine.called NativeCall.DeleteEngine } := by
        simp [Dispose, heq]
      rw [this, List.getElem?_set_ne (Ne.symm hpq)] at hp
      exact hp
    have hplen : p < w.heap.length := (List.getElem?_eq_some.mp hp1).1
    have hel := (hids p e hp1).1
    have hql := (hids q eq heq).1
    have hqg := (hids q eq heq).2
    simp only [u64] at hel hql hqg
    rw [Nat.mod_eq_of_lt (by omega)] at hel hql hqg
    have hst : (Dispose w q).storages =
        Function.update (Function.update w.storages eq.lcsHandler none) eq.gcsHandler none := by
      simp [Dispose, heq]
    rw [hst, Function.update_noteq (by omega), Function.update_noteq (by omega)]
    exact ih hnowrap p e hp1 hpd

/-- C15, amended: in every registry state reached by `NewV8Engine` and `Dispose` calls
without wrap-around of the 64-bit counter, for every engine `e` created and not yet
disposed, `getEngineByStorageHandler(e.lcsHandler)` returns `(e, e.ctx.contract)`. -/
theorem getEngineByStorageHandler_local (w : Registry) (d : List Nat) (hist : History w d)
    (hnowrap : 2 * w.heap.length < 2 ^ 64) (p : Nat) (e : V8Engine)
    (hp : w.heap[p]? = some e) (hlive : p ∉ d) :
    getEngineByStorageHandler w e.lcsHandler = (some p, some e.ctx.contract) := by
  have hs := hist.live_local hnowrap p e hp hlive
  simp only [getEngineByStorageHandler, hs, hp, if_true]

/-- Witness of the amended C15: two engines are created and the first is disposed; the
Local handle 3 of the second engine resolves to that engine, at pointer 1, and to
its contract. -/
theorem getEngineByStorageHandler_local_witness :
    getEngineByStorageHandler
      (Dispose (NewV8Engine (NewV8Engine Registry.empty sampleContext sampleNative).1
        sampleContext { sampleNative with addr := 128 }).1 0) 3 = (some 1, some 7) :=
  getEngineByStorageHandler_local
    (Dispose (NewV8Engine (NewV8Engine Registry.empty sampleContext sampleNative).1
      sampleContext { sampleNative with addr := 128 }).1 0) [0]
    (History.dispose _ _ 0
      (History.newEngine _ _ _ _ (History.newEngine _ _ _ _ History.empty)) (by decide))
    (by decide) 1
    { sampleEngine 0 0 with
      v8engine := { sampleNative with addr := 128 }, lcsHandler := 3, gcsHandler := 4 }
    (by decide) (by decide)

/-! ## Handle registry: the counter wraps -/

/-- Creating engines on the empty registry is a history without disposal. -/
theorem creations_history (n : Nat) : History (creations n) [] := by
  induction n with
  | zero => exact History.empty
  | succ n ih => exact History.newEngine _ _ _ _ ih

/-- After `n` creations the heap holds `n` engines. -/
theorem creations_length (n : Nat) : (creations n).heap.length = n := by
  induction n with
  | zero => rfl
  | succ n ih =>
    obtain ⟨e, hh, _⟩ := NewV8Engine_heap (creations n) sampleContext sampleNative
    show (NewV8Engine (creations n) sampleContext sampleNative).1.heap.length = n + 1
    rw [hh, List.length_append, ih]
    rfl

/-- The first engine created stays the first engine of the heap. -/
theorem creations_first (n : Nat) : (creations (n + 1)).heap[0]? = some (sampleEngine 0 0) := by
  induction n with
  | zero => rfl
  | succ n ih =>
    obtain ⟨e, hh, _⟩ := NewV8Engine_heap (creations (n + 1)) sampleContext sampleNative
    show (NewV8Engine (creations (n + 1)) sampleContext sampleNative).1.heap[0]? = _
    rw [hh, List.getElem?_append_left (by rw [creations_length]; omega)]
    exact ih

/-- The engine created last: its Local id is the value `2 * n + 1` of the counter, as
`uint64`, and that key of `storages` points to it. -/
theorem creations_last (n : Nat) :
    ∃ e, (creations (n + 1)).heap[n]? = some e ∧ e.lcsHandler = u64 (2 * n + 1) ∧
      e.ctx = sampleContext ∧ (creations (n + 1)).storages (u64 (2 * n + 1)) = some n := by
  obtain ⟨hidx, _⟩ := (creations_history n).reachable.handleIds
  obtain ⟨e, hh, hl, hg, hc⟩ := NewV8Engine_heap (creations n) sampleContext sampleNative
  have hlen := creations_length n
  have hl0 : u64 ((creations n).storagesIdx + 1) = u64 (2 * n + 1) := by
    rw [hidx, hlen]; simp only [u64]; omega
  have hst : (creations (n + 1)).storages =
      Function.update (Function.update (creations n).storages
        (u64 ((creations n).storagesIdx + 1)) (some (creations n).heap.length))
        (u64 (u64 ((creations n).storagesIdx + 1) + 1)) (some (creations n).heap.length) := rfl
  have hne : u64 (2 * n + 1) ≠ u64 (u64 (2 * n + 1) + 1) := by
    simp only [u64]; omega
  refine ⟨e, ?_, ?_, hc, ?_⟩
  · show (NewV8Engine (creations n) sampleContext sampleNative).1.heap[n]? = some e
    rw [hh]
    have := List.getElem?_concat_length (creations n).heap e
    rwa [hlen] at this
  · rw [hl, hl0]
  · rw [hst, hl0, Function.update_noteq hne, Function.update_same, hlen]

/-- Once the counter has come back to the value 1, the Local handle of the first engine
resolves to the engine created last. -/
theorem creations_wrapped (n : Nat) (hwrap : u64 (2 * n + 1) = 1) (hn : n ≠ 0) :
    History (creations (n + 1)) [] ∧
    (creations (n + 1)).heap[0]? = some (sampleEngine 0 0) ∧
    getEngineByStorageHandler (creations (n + 1)) (sampleEngine 0 0).lcsHandler =
      (some n, some 7) ∧
    getEngineByStorageHandler (creations (n + 1)) (sampleEngine 0 0).lcsHandler ≠
      (some 0, some (sampleEngine 0 0).ctx.contract) := by
  obtain ⟨e, he, hl, hc, hs⟩ := creations_last n
  rw [hwrap] at hl hs
  have hres : getEngineByStorageHandler (creations (n + 1)) (sampleEngine 0 0).lcsHandler =
      (some n, some 7) := by
    have h1 : (sampleEngine 0 0).lcsHandler = 1 := rfl
    rw [h1]
    simp only [getEngineByStorageHandler, hs, he, hl, if_true, hc]
    rfl
  refine ⟨creations_history _, creations_first _, hres, ?_⟩
  rw [hres]
  intro h
  have h1 := congrArg Prod.fst h
  simp only [Option.some.injEq] at h1
  exact hn h1

/-- C15 fails as stated: after `2 ^ 63 + 1` creations and no disposal the counter has
wrapped, the engine created last has received the Local id 1 of the first engine, and
`getEngineByStorageHandler` on the Local handle of the first engine, at pointer 0,
returns the engine at pointer `2 ^ 63`. -/
theorem getEngineByStorageHandler_local_wraps :
    History (creations (2 ^ 63 + 1)) [] ∧
    (creations (2 ^ 63 + 1)).heap[0]? = some (sampleEngine 0 0) ∧
    getEngineByStorageHandler (creations (2 ^ 63 + 1)) (sampleEngine 0 0).lcsHandler =
      (some (2 ^ 63), some 7) ∧
    getEngineByStorageHandler (creations (2 ^ 63 + 1)) (sampleEngine 0 0).lcsHandler ≠
      (some 0, some (sampleEngine 0 0).ctx.contract) :=
  creations_wrapped (2 ^ 63) (by norm_num [u64]) (by norm_num)

/-! ## Dynamic memory adjustment -/

/-- The engine left by `SetExecutionLimits`, accepted or rejected. -/
theorem SetExecutionLimits_engine (e : V8Engine) (i m : Nat) :
    (SetExecutionLimits e i m).1 =
      { e with
        v8engine :=
          { e.v8engine with
            limits_of_executed_instructions := i
            limits_of_total_memory_size := m }
        limitsOfExecutionInstructions := i
        limitsOfTotalMemorySize := m } := by
  unfold SetExecutionLimits
  repeat' split
  all_goals rfl

/-- The method `RunScriptSource` leaves the context of the engine as it was. -/
theorem RunScriptSource_ctx (env : Env) (e : V8Engine) (source : String) (off : Int) :
    (RunScriptSource env e source off).1.ctx = e.ctx := by
  simp only [RunScriptSource]
  rw [apply_ite V8Engine.ctx]
  exact ite_self _

/-- The method `AddModule` changes neither the context nor the ceilings of the
engine. -/
theorem AddModule_frame (env : Env) (cache : LRU) (e : V8Engine) (id source : String)
    (off : Int) :
    (AddModule env cache e id source off).2.1.ctx = e.ctx ∧
    (AddModule env cache e id source off).2.1.limitsOfExecutionInstructions =
      e.limitsOfExecutionInstructions ∧
    (AddModule env cache e id source off).2.1.limitsOfTotalMemorySize =
      e.limitsOfTotalMemorySize := by
  unfold AddModule
  by_cases hl : e.enableLimits = true
  · simp only [hl, if_true]
    by_cases hc : cache.Contains (env.sourceHash source) = true
    · simp only [hc, if_true]
      cases hg : (cache.Get (env.sourceHash source)).2 with
      | some item => simp [hg]
      | none =>
        cases hi : env.InjectTracingInstructions e.v8engine source
            e.strictDisallowUsageOfInstructionCounter with
        | none => simp [hg, InjectTracingInstructions, hi]
        | some v => simp [hg, InjectTracingInstructions, hi]
    · simp only [hc]
      cases hi : env.InjectTracingInstructions e.v8engine source
          e.strictDisallowUsageOfInstructionCounter with
      | none => simp [InjectTracingInstructions, hi]
      | some v => simp [InjectTracingInstructions, hi]
  · simp [hl]

/-- The method `TranspileTypeScript` changes neither the context nor the ceilings of the
engine, and runs no script. -/
theorem TranspileTypeScript_frame (env : Env) (e : V8Engine) (source : String) :
    (TranspileTypeScript env e source).1.ctx = e.ctx ∧
    (TranspileTypeScript env e source).1.limitsOfExecutionInstructions =
      e.limitsOfExecutionInstructions ∧
    (TranspileTypeScript env e source).1.limitsOfTotalMemorySize =
      e.limitsOfTotalMemorySize ∧
    scriptRuns (TranspileTypeScript env e source).1 = scriptRuns e := by
  unfold TranspileTypeScript
  cases env.TranspileTypeScriptModule e.v8engine source <;>
    simp [scriptRuns, CV8Engine.called, NativeCall.isRun]

/-- A built invocation: `RunContractScript` goes on with it and no error, and the
build has changed neither the context nor the ceilings, and has run no script. -/
theorem buildInvocation_some (env : Env) (cache : LRU) (e : V8Engine)
    (source sourceType function args : String) (c1 : LRU) (e1 : V8Engine) (src : String)
    (off : Int)
    (hb : buildInvocation env cache e source sourceType function args =
      some (c1, e1, src, off)) :
    RunContractScript env cache e source sourceType function args =
      runPrepared env c1 e1 src off none ∧
    e1.ctx = e.ctx ∧
    e1.limitsOfExecutionInstructions = e.limitsOfExecutionInstructions ∧
    e1.limitsOfTotalMemorySize = e.limitsOfTotalMemorySize ∧
    scriptRuns e1 = scriptRuns e := by
  unfold buildInvocation at hb
  unfold RunContractScript
  by_cases hjs : sourceType = env.SourceTypeJavaScript
  · rw [if_pos hjs] at hb ⊢
    have hE := prepareRunnableContractScript_engine env cache e source function args
    have hF := AddModule_frame env cache e ModuleID source 0
    have hR := prepareRunnableContractScript_scriptRuns env cache e source function args
    rcases hp : prepareRunnableContractScript env cache e source function args with
      ⟨c, e', s', o', _ | err⟩
    · rw [hp] at hb hE hR
      simp only [Option.some.injEq, Prod.mk.injEq] at hb
      obtain ⟨rfl, rfl, rfl, rfl⟩ := hb
      simp only at hE hR
      rw [← hE] at hF
      exact ⟨rfl, hF.1, hF.2.1, hF.2.2, hR⟩
    · rw [hp] at hb
      simp at hb
  · rw [if_neg hjs] at hb ⊢
    by_cases hts : sourceType = env.SourceTypeTypeScript
    · rw [if_pos hts] at hb ⊢
      have hT := TranspileTypeScript_frame env e source
      rcases ht : TranspileTypeScript env e source with ⟨et, js, lo, _ | terr⟩
      · rw [ht] at hb hT
        simp only at hb hT ⊢
        have hE := prepareRunnableContractScript_engine env cache et js function args
        have hF := AddModule_frame env cache et ModuleID js 0
        have hR := prepareRunnableContractScript_scriptRuns env cache et js function args
        rcases hp : prepareRunnableContractScript env cache et js function args with
          ⟨c, e', s', o', _ | err⟩
        · rw [hp] at hb hE hR
          simp only [Option.some.injEq, Prod.mk.injEq] at hb
          obtain ⟨rfl, rfl, rfl, rfl⟩ := hb
          simp only at hE hR
          rw [← hE] at hF
          exact ⟨rfl, hF.1.trans hT.1, hF.2.1.trans hT.2.1, hF.2.2.trans hT.2.2.1,
            hR.trans hT.2.2.2⟩
        · rw [hp] at hb
          simp at hb
      · rw [ht] at hb
        simp at hb
    · rw [if_neg hts] at hb
      simp at hb

/-- The ceilings left by the part of `RunContractScript` after the `switch`, when no
build error is pending: at or above the height threshold the memory ceiling is the
memory just measured plus the default allowance, as `uint64`, and the instruction
ceiling is kept; below the threshold both are kept. -/
theorem runPrepared_limits (env : Env) (cache : LRU) (e : V8Engine) (src : String)
    (off : Int) :
    (env.NvmMemoryLimitWithoutInjectHeight ≤ e.ctx.block.Height →
      (runPrepared env cache e src off none).engine.limitsOfTotalMemorySize =
        u64 ((env.ReadMemoryStatistics e.v8engine).total_memory_size +
          env.DefaultLimitsOfTotalMemorySize) ∧
      (runPrepared env cache e src off none).engine.limitsOfExecutionInstructions =
        e.limitsOfExecutionInstructions) ∧
    (e.ctx.block.Height < env.NvmMemoryLimitWithoutInjectHeight →
      (runPrepared env cache e src off none).engine.limitsOfTotalMemorySize =
        e.limitsOfTotalMemorySize ∧
      (runPrepared env cache e src off none).engine.limitsOfExecutionInstructions =
        e.limitsOfExecutionInstructions) := by
  constructor
  · intro hh
    simp only [runPrepared, ge_iff_le, hh, if_true]
    have hS := SetExecutionLimits_engine (CollectTracingStats env e)
      (CollectTracingStats env e).limitsOfExecutionInstructions
      (u64 ((CollectTracingStats env e).actualTotalMemorySize +
        env.DefaultLimitsOfTotalMemorySize))
    rcases hs : SetExecutionLimits (CollectTracingStats env e)
        (CollectTracingStats env e).limitsOfExecutionInstructions
        (u64 ((CollectTracingStats env e).actualTotalMemorySize +
          env.DefaultLimitsOfTotalMemorySize)) with ⟨e2, _ | err⟩
    · rw [hs] at hS
      simp only at hS ⊢
      rw [(RunScriptSource_limits env e2 src off).1, (RunScriptSource_limits env e2 src off).2,
        hS]
      exact ⟨rfl, rfl⟩
    · rw [hs] at hS
      simp only at hS ⊢
      rw [hS]
      exact ⟨rfl, rfl⟩
  · intro hh
    have hn : ¬ env.NvmMemoryLimitWithoutInjectHeight ≤ e.ctx.block.Height := by omega
    simp only [runPrepared, ge_iff_le, hn, if_false]
    exact ⟨(RunScriptSource_limits env e src off).2, (RunScriptSource_limits env e src off).1⟩

/-- The ceilings of `engineAtRun`, in the engine and in the native instance: the memory
ceiling is the memory just measured plus the default allowance, as `uint64`, the
instruction ceiling is the one the engine had. -/
theorem engineAtRun_limits (env : Env) (e : V8Engine) :
    (engineAtRun env e).limitsOfTotalMemorySize =
      ((env.ReadMemoryStatistics e.v8engine).total_memory_size +
        env.DefaultLimitsOfTotalMemorySize) % 2 ^ 64 ∧
    (engineAtRun env e).v8engine.limits_of_total_memory_size =
      ((env.ReadMemoryStatistics e.v8engine).total_memory_size +
        env.DefaultLimitsOfTotalMemorySize) % 2 ^ 64 ∧
    (engineAtRun env e).limitsOfExecutionInstructions = e.limitsOfExecutionInstructions ∧
    (engineAtRun env e).v8engine.limits_of_executed_instructions =
      e.limitsOfExecutionInstructions := by
  unfold engineAtRun
  rw [SetExecutionLimits_engine]
  exact ⟨rfl, rfl, rfl, rfl⟩

/-- At or above the height threshold, when `SetExecutionLimits` accepts the adjusted
ceilings, the rest of `RunContractScript` is `RunScriptSource` on `engineAtRun`. -/
theorem runPrepared_adjusted (env : Env) (cache : LRU) (e : V8Engine) (src : String)
    (off : Int) (hh : env.NvmMemoryLimitWithoutInjectHeight ≤ e.ctx.block.Height)
    (hi : e.limitsOfExecutionInstructions ≠ 0)
    (hm : 6000000 ≤ ((env.ReadMemoryStatistics e.v8engine).total_memory_size +
      env.DefaultLimitsOfTotalMemorySize) % 2 ^ 64) :
    runPrepared env cache e src off none =
      ⟨cache, (RunScriptSource env (engineAtRun env e) src off).1,
        (RunScriptSource env (engineAtRun env e) src off).2.1,
        (RunScriptSource env (engineAtRun env e) src off).2.2⟩ := by
  have hi2 : (CollectTracingStats env e).limitsOfExecutionInstructions ≠ 0 := hi
  have hm2 : 6000000 ≤ u64 ((CollectTracingStats env e).actualTotalMemorySize +
      env.DefaultLimitsOfTotalMemorySize) := hm
  have hacc : (SetExecutionLimits (CollectTracingStats env e)
      (CollectTracingStats env e).limitsOfExecutionInstructions
      (u64 ((CollectTracingStats env e).actualTotalMemorySize +
        env.DefaultLimitsOfTotalMemorySize))).2 = none := by
    unfold SetExecutionLimits
    rw [if_neg (by omega), if_neg (by omega)]
  simp only [runPrepared, ge_iff_le, hh, if_true, engineAtRun]
  rcases hs : SetExecutionLimits (CollectTracingStats env e)
      (CollectTracingStats env e).limitsOfExecutionInstructions
      (u64 ((CollectTracingStats env e).actualTotalMemorySize +
        env.DefaultLimitsOfTotalMemorySize)) with ⟨e2, err⟩
  rw [hs] at hacc
  simp only at hacc
  subst hacc
  rfl

/-- At or above the height threshold, when `SetExecutionLimits` rejects the adjusted
ceilings, `RunContractScript` returns the rejection and no script is run. -/
theorem runPrepared_rejected (env : Env) (cache : LRU) (e : V8Engine) (src : String)
    (off : Int) (hh : env.NvmMemoryLimitWithoutInjectHeight ≤ e.ctx.block.Height)
    (hrej : e.limitsOfExecutionInstructions = 0 ∨
      ((env.ReadMemoryStatistics e.v8engine).total_memory_size +
        env.DefaultLimitsOfTotalMemorySize) % 2 ^ 64 < 6000000) :
    (runPrepared env cache e src off none).err ≠ none ∧
    (runPrepared env cache e src off none).engine = engineAtRun env e ∧
    scriptRuns (runPrepared env cache e src off none).engine = scriptRuns e := by
  have hrej2 : (CollectTracingStats env e).limitsOfExecutionInstructions = 0 ∨
      u64 ((CollectTracingStats env e).actualTotalMemorySize +
        env.DefaultLimitsOfTotalMemorySize) < 6000000 := hrej
  have hacc : (SetExecutionLimits (CollectTracingStats env e)
      (CollectTracingStats env e).limitsOfExecutionInstructions
      (u64 ((CollectTracingStats env e).actualTotalMemorySize +
        env.DefaultLimitsOfTotalMemorySize))).2 ≠ none := by
    unfold SetExecutionLimits
    split
    · simp
    · rw [if_pos (by omega)]
      simp
  have hruns : scriptRuns (engineAtRun env e) = scriptRuns e := by
    unfold engineAtRun
    rw [SetExecutionLimits_engine]
    simp [scriptRuns, CollectTracingStats, CV8Engine.called, NativeCall.isRun]
  rw [← hruns]
  simp only [runPrepared, ge_iff_le, hh, if_true, engineAtRun]
  rcases hs : SetExecutionLimits (CollectTracingStats env e)
      (CollectTracingStats env e).limitsOfExecutionInstructions
      (u64 ((CollectTracingStats env e).actualTotalMemorySize +
        env.DefaultLimitsOfTotalMemorySize)) with ⟨e2, _ | err⟩
  · rw [hs] at hacc
    exact absurd rfl hacc
  · simp

/-- Below the height threshold the rest of `RunContractScript` is `RunScriptSource` on
the engine left by the build. -/
theorem runPrepared_below (env : Env) (cache : LRU) (e : V8Engine) (src : String)
    (off : Int) (hh : e.ctx.block.Height < env.NvmMemoryLimitWithoutInjectHeight) :
    runPrepared env cache e src off none =
      ⟨cache, (RunScriptSource env e src off).1, (RunScriptSource env e src off).2.1,
        (RunScriptSource env e src off).2.2⟩ := by
  have hn : ¬ env.NvmMemoryLimitWithoutInjectHeight ≤ e.ctx.block.Height := by omega
  simp only [runPrepared, ge_iff_le, hn, if_false]

/-- The method `AddModule` leaves the ceilings of the native instance as they were. -/
theorem AddModule_native_limits (env : Env) (cache : LRU) (e : V8Engine) (id source : String)
    (off : Int) :
    (AddModule env cache e id source off).2.1.v8engine.limits_of_executed_instructions =
      e.v8engine.limits_of_executed_instructions ∧
    (AddModule env cache e id source off).2.1.v8engine.limits_of_total_memory_size =
      e.v8engine.limits_of_total_memory_size := by
  unfold AddModule
  by_cases hl : e.enableLimits = true
  · simp only [hl, if_true]
    by_cases hc : cache.Contains (env.sourceHash source) = true
    · simp only [hc, if_true]
      cases hg : (cache.Get (env.sourceHash source)).2 with
      | some item => simp [hg]
      | none =>
        cases hi : env.InjectTracingInstructions e.v8engine source
            e.strictDisallowUsageOfInstructionCounter with
        | none => simp [hg, InjectTracingInstructions, hi, CV8Engine.called]
        | some v => simp [hg, InjectTracingInstructions, hi, CV8Engine.called]
    · simp only [hc]
      cases hi : env.InjectTracingInstructions e.v8engine source
          e.strictDisallowUsageOfInstructionCounter with
      | none => simp [InjectTracingInstructions, hi, CV8Engine.called]
      | some v => simp [InjectTracingInstructions, hi, CV8Engine.called]
  · simp [hl]

/-- The method `TranspileTypeScript` leaves the ceilings of the native instance as they
were. -/
theorem TranspileTypeScript_native_limits (env : Env) (e : V8Engine) (source : String) :
    (TranspileTypeScript env e source).1.v8engine.limits_of_executed_instructions =
      e.v8engine.limits_of_executed_instructions ∧
    (TranspileTypeScript env e source).1.v8engine.limits_of_total_memory_size =
      e.v8engine.limits_of_total_memory_size := by
  unfold TranspileTypeScript
  cases env.TranspileTypeScriptModule e.v8engine source <;> simp [CV8Engine.called]

/-- A built invocation has left the ceilings of the native instance as they were. -/
theorem buildInvocation_native_limits (env : Env) (cache : LRU) (e : V8Engine)
    (source sourceType function args : String) (c1 : LRU) (e1 : V8Engine) (src : String)
    (off : Int)
    (hb : buildInvocation env cache e source sourceType function args =
      some (c1, e1, src, off)) :
    e1.v8engine.limits_of_executed_instructions = e.v8engine.limits_of_executed_instructions ∧
    e1.v8engine.limits_of_total_memory_size = e.v8engine.limits_of_total_memory_size := by
  unfold buildInvocation at hb
  by_cases hjs : sourceType = env.SourceTypeJavaScript
  · rw [if_pos hjs] at hb
    have hE := prepareRunnableContractScript_engine env cache e source function args
    have hF := AddModule_native_limits env cache e ModuleID source 0
    rcases hp : prepareRunnableContractScript env cache e source function args with
      ⟨c, e', s', o', _ | err⟩
    · rw [hp] at hb hE
      simp only [Option.some.injEq, Prod.mk.injEq] at hb
      obtain ⟨rfl, rfl, rfl, rfl⟩ := hb
      simp only at hE
      rw [← hE] at hF
      exact hF
    · rw [hp] at hb
      simp at hb
  · rw [if_neg hjs] at hb
    by_cases hts : sourceType = env.SourceTypeTypeScript
    · rw [if_pos hts] at hb
      have hT := TranspileTypeScript_native_limits env e source
      rcases ht : TranspileTypeScript env e source with ⟨et, js, lo, _ | terr⟩
      · rw [ht] at hb hT
        simp only at hb hT
        have hE := prepareRunnableContractScript_engine env cache et js function args
        have hF := AddModule_native_limits env cache et ModuleID js 0
        rcases hp : prepareRunnableContractScript env cache et js function args with
          ⟨c, e', s', o', _ | err⟩
        · rw [hp] at hb hE
          simp only [Option.some.injEq, Prod.mk.injEq] at hb
          obtain ⟨rfl, rfl, rfl, rfl⟩ := hb
          simp only at hE
          rw [← hE] at hF
          exact ⟨hF.1.trans hT.1, hF.2.trans hT.2⟩
        · rw [hp] at hb
          simp at hb
      · rw [ht] at hb
        simp at hb
    · rw [if_neg hts] at hb
      simp at hb

/-- C16 fails as stated: at height 2000, above the threshold 1000, with 2 ^ 64 - 1
bytes measured after the build and a default allowance of 40000000, the contract
script is run on an engine whose memory ceiling is 39999999, not the sum: the run
is answered with `ErrExceedMemoryLimits`, which the sum as ceiling would not give. -/
theorem RunContractScript_memory_adjustment_wraps :
    (buildInvocation (envWith ⟨0, none, false⟩ ⟨0, 2 ^ 64 - 1⟩) [] (sampleEngineAt 2000 100 0)
      "class C" "js" "greet" "[]").isSome = true ∧
    (envWith ⟨0, none, false⟩ ⟨0, 2 ^ 64 - 1⟩).NvmMemoryLimitWithoutInjectHeight <
      (sampleEngineAt 2000 100 0).ctx.block.Height ∧
    RunContractScript (envWith ⟨0, none, false⟩ ⟨0, 2 ^ 64 - 1⟩) [] (sampleEngineAt 2000 100 0)
        "class C" "js" "greet" "[]" =
      ⟨(prepareRunnableContractScript (envWith ⟨0, none, false⟩ ⟨0, 2 ^ 64 - 1⟩) []
          (sampleEngineAt 2000 100 0) "class C" "greet" "[]").1,
        (RunScriptSource (envWith ⟨0, none, false⟩ ⟨0, 2 ^ 64 - 1⟩)
          (engineAtRun (envWith ⟨0, none, false⟩ ⟨0, 2 ^ 64 - 1⟩)
            (prepareRunnableContractScript (envWith ⟨0, none, false⟩ ⟨0, 2 ^ 64 - 1⟩) []
              (sampleEngineAt 2000 100 0) "class C" "greet" "[]").2.1)
          (prepareRunnableContractScript (envWith ⟨0, none, false⟩ ⟨0, 2 ^ 64 - 1⟩) []
            (sampleEngineAt 2000 100 0) "class C" "greet" "[]").2.2.1 0).1,
        "\"\"", some Err.ErrExceedMemoryLimits⟩ ∧
    (engineAtRun (envWith ⟨0, none, false⟩ ⟨0, 2 ^ 64 - 1⟩)
      (prepareRunnableContractScript (envWith ⟨0, none, false⟩ ⟨0, 2 ^ 64 - 1⟩) []
        (sampleEngineAt 2000 100 0) "class C" "greet" "[]").2.1).limitsOfTotalMemorySize =
      39999999 ∧
    (engineAtRun (envWith ⟨0, none, false⟩ ⟨0, 2 ^ 64 - 1⟩)
      (prepareRunnableContractScript (envWith ⟨0, none, false⟩ ⟨0, 2 ^ 64 - 1⟩) []
        (sampleEngineAt 2000 100 0) "class C" "greet" "[]").2.1).limitsOfTotalMemorySize ≠
      (2 ^ 64 - 1) + (envWith ⟨0, none, false⟩ ⟨0, 2 ^ 64 - 1⟩).DefaultLimitsOfTotalMemorySize ∧
    (scriptRuns (RunContractScript (envWith ⟨0, none, false⟩ ⟨0, 2 ^ 64 - 1⟩) []
      (sampleEngineAt 2000 100 0) "class C" "js" "greet" "[]").engine).length = 1 := by
  refine ⟨by decide, by decide, by rfl, by decide, by decide, by decide⟩

/-- C16, amended: for every invocation of `RunContractScript` that builds successfully.
Above the height threshold the engine `engineAtRun` has, in the Go fields and in the
native instance, the memory ceiling (total memory measured after the build plus
`core.DefaultLimitsOfTotalMemorySize`) modulo `2 ^ 64` and the instruction ceiling
configured before; when `SetExecutionLimits` accepts these ceilings the contract script
is run by `RunScriptSource` on exactly that engine, when it rejects them no script is
run; the engine returned carries the same ceilings.  Below the threshold the script is
run on the engine left by the build, whose ceilings are the configured ones. -/
theorem RunContractScript_memory_adjustment (env : Env) (cache : LRU) (e : V8Engine)
    (source sourceType function args : String) (c1 : LRU) (e1 : V8Engine) (src : String)
    (off : Int)
    (hb : buildInvocation env cache e source sourceType function args =
      some (c1, e1, src, off)) :
    (env.NvmMemoryLimitWithoutInjectHeight < e.ctx.block.Height →
      (engineAtRun env e1).limitsOfTotalMemorySize =
        ((env.ReadMemoryStatistics e1.v8engine).total_memory_size +
          env.DefaultLimitsOfTotalMemorySize) % 2 ^ 64 ∧
      (engineAtRun env e1).v8engine.limits_of_total_memory_size =
        ((env.ReadMemoryStatistics e1.v8engine).total_memory_size +
          env.DefaultLimitsOfTotalMemorySize) % 2 ^ 64 ∧
      (engineAtRun env e1).limitsOfExecutionInstructions = e.limitsOfExecutionInstructions ∧
      (engineAtRun env e1).v8engine.limits_of_executed_instructions =
        e.limitsOfExecutionInstructions ∧
      (e.limitsOfExecutionInstructions ≠ 0 →
        6000000 ≤ ((env.ReadMemoryStatistics e1.v8engine).total_memory_size +
          env.DefaultLimitsOfTotalMemorySize) % 2 ^ 64 →
        RunContractScript env cache e source sourceType function args =
          ⟨c1, (RunScriptSource env (engineAtRun env e1) src off).1,
            (RunScriptSource env (engineAtRun env e1) src off).2.1,
            (RunScriptSource env (engineAtRun env e1) src off).2.2⟩) ∧
      (e.limitsOfExecutionInstructions = 0 ∨
          ((env.ReadMemoryStatistics e1.v8engine).total_memory_size +
            env.DefaultLimitsOfTotalMemorySize) % 2 ^ 64 < 6000000 →
        (RunContractScript env cache e source sourceType function args).err ≠ none ∧
        scriptRuns (RunContractScript env cache e source sourceType function args).engine =
          scriptRuns e) ∧
      (RunContractScript env cache e source sourceType function args).engine.limitsOfTotalMemorySize =
        ((env.ReadMemoryStatistics e1.v8engine).total_memory_size +
          env.DefaultLimitsOfTotalMemorySize) % 2 ^ 64 ∧
      (RunContractScript env cache e source sourceType function
        args).engine.limitsOfExecutionInstructions = e.limitsOfExecutionInstructions) ∧
    (e.ctx.block.Height < env.NvmMemoryLimitWithoutInjectHeight →
      RunContractScript env cache e source sourceType function args =
        ⟨c1, (RunScriptSource env e1 src off).1, (RunScriptSource env e1 src off).2.1,
          (RunScriptSource env e1 src off).2.2⟩ ∧
      e1.limitsOfTotalMemorySize = e.limitsOfTotalMemorySize ∧
      e1.limitsOfExecutionInstructions = e.limitsOfExecutionInstructions ∧
      e1.v8engine.limits_of_total_memory_size = e.v8engine.limits_of_total_memory_size ∧
      e1.v8engine.limits_of_executed_instructions =
        e.v8engine.limits_of_executed_instructions ∧
      (RunContractScript env cache e source sourceType function args).engine.limitsOfTotalMemorySize =
        e.limitsOfTotalMemorySize ∧
      (RunContractScript env cache e source sourceType function
        args).engine.limitsOfExecutionInstructions = e.limitsOfExecutionInstructions) := by
  obtain ⟨hrun, hctx, hli, hlm, hruns⟩ :=
    buildInvocation_some env cache e source sourceType function args c1 e1 src off hb
  obtain ⟨hni, hnm⟩ :=
    buildInvocation_native_limits env cache e source sourceType function args c1 e1 src off hb
  have h := runPrepared_limits env c1 e1 src off
  obtain ⟨ha, hb2, hc, hd⟩ := engineAtRun_limits env e1
  rw [hrun, ← hctx, ← hli, ← hlm, ← hruns]
  constructor
  · intro hh
    refine ⟨ha, hb2, hc, hd, ?_, ?_, h.1 (Nat.le_of_lt hh)⟩
    · intro hi hm
      exact runPrepared_adjusted env c1 e1 src off (Nat.le_of_lt hh) hi hm
    · intro hrej
      have := runPrepared_rejected env c1 e1 src off (Nat.le_of_lt hh) hrej
      exact ⟨this.1, this.2.2⟩
  · intro hh
    exact ⟨runPrepared_below env c1 e1 src off hh, rfl, rfl, hnm, hni, h.2 hh⟩


/-- Witness of the amended C16: at height 2000, with memory ceiling 7000000 configured
and 9000000 bytes measured after the build and after the run, the engine at the run
has the memory ceiling 49000000 and the run is answered without error; under the
configured ceiling it would have been answered with `ErrExceedMemoryLimits`. -/
theorem RunContractScript_memory_adjustment_witness :
    (engineAtRun (envWith ⟨0, none, false⟩ ⟨0, 9000000⟩)
      (prepareRunnableContractScript (envWith ⟨0, none, false⟩ ⟨0, 9000000⟩) []
        (sampleEngineAt 2000 100 7000000) "class C" "greet" "[]").2.1).limitsOfTotalMemorySize = 49000000 ∧
    (RunContractScript (envWith ⟨0, none, false⟩ ⟨0, 9000000⟩) [] (sampleEngineAt 2000 100 7000000)
      "class C" "js" "greet" "[]").err = none ∧
    (RunScriptSource (envWith ⟨0, none, false⟩ ⟨0, 9000000⟩) (sampleEngineAt 2000 100 7000000) "x" 0).2.2 =
      some Err.ErrExceedMemoryLimits :=
  ⟨(((RunContractScript_memory_adjustment (envWith ⟨0, none, false⟩ ⟨0, 9000000⟩) []
      (sampleEngineAt 2000 100 7000000) "class C" "js" "greet" "[]" _ _ _ _
      (by rfl :
        buildInvocation (envWith ⟨0, none, false⟩ ⟨0, 9000000⟩) [] (sampleEngineAt 2000 100 7000000)
          "class C" "js" "greet" "[]" =
        some ((prepareRunnableContractScript (envWith ⟨0, none, false⟩ ⟨0, 9000000⟩) []
        (sampleEngineAt 2000 100 7000000) "class C" "greet" "[]").1,
          (prepareRunnableContractScript (envWith ⟨0, none, false⟩ ⟨0, 9000000⟩) []
        (sampleEngineAt 2000 100 7000000) "class C" "greet" "[]").2.1,
          (prepareRunnableContractScript (envWith ⟨0, none, false⟩ ⟨0, 9000000⟩) []
        (sampleEngineAt 2000 100 7000000) "class C" "greet" "[]").2.2.1,
          (prepareRunnableContractScript (envWith ⟨0, none, false⟩ ⟨0, 9000000⟩) []
        (sampleEngineAt 2000 100 7000000) "class C" "greet" "[]").2.2.2.1)))).1 (by decide)).1,
    (congrArg Outcome.err
      ((((RunContractScript_memory_adjustment (envWith ⟨0, none, false⟩ ⟨0, 9000000⟩) []
      (sampleEngineAt 2000 100 7000000) "class C" "js" "greet" "[]" _ _ _ _
      (by rfl :
        buildInvocation (envWith ⟨0, none, false⟩ ⟨0, 9000000⟩) [] (sampleEngineAt 2000 100 7000000)
          "class C" "js" "greet" "[]" =
        some ((prepareRunnableContractScript (envWith ⟨0, none, false⟩ ⟨0, 9000000⟩) []
        (sampleEngineAt 2000 100 7000000) "class C" "greet" "[]").1,
          (prepareRunnableContractScript (envWith ⟨0, none, false⟩ ⟨0, 9000000⟩) []
        (sampleEngineAt 2000 100 7000000) "class C" "greet" "[]").2.1,
          (prepareRunnableContractScript (envWith ⟨0, none, false⟩ ⟨0, 9000000⟩) []
        (sampleEngineAt 2000 100 7000000) "class C" "greet" "[]").2.2.1,
          (prepareRunnableContractScript (envWith ⟨0, none, false⟩ ⟨0, 9000000⟩) []
        (sampleEngineAt 2000 100 7000000) "class C" "greet" "[]").2.2.2.1)))).1 (by decide)).2.2.2.2.1 (by decide) (by decide))).trans (by decide),
    by decide⟩

/-! ## Adjustment with no instruction ceiling -/

/-- C20: for every invocation that builds successfully, at or above the height
threshold, on an engine whose instruction ceiling is 0, `RunContractScript` returns the
empty result and `ErrLimitHasEmpty` from the dynamic memory adjustment, and no script
is run. -/
theorem RunContractScript_no_instruction_ceiling (env : Env) (cache : LRU) (e : V8Engine)
    (source sourceType function args : String) (c1 : LRU) (e1 : V8Engine) (src : String)
    (off : Int)
    (hb : buildInvocation env cache e source sourceType function args =
      some (c1, e1, src, off))
    (hheight : env.NvmMemoryLimitWithoutInjectHeight ≤ e.ctx.block.Height)
    (hzero : e.limitsOfExecutionInstructions = 0) :
    (RunContractScript env cache e source sourceType function args).result = "" ∧
    (RunContractScript env cache e source sourceType function args).err =
      some Err.ErrLimitHasEmpty ∧
    scriptRuns (RunContractScript env cache e source sourceType function args).engine =
      scriptRuns e := by
  obtain ⟨hrun, hctx, hli, _, hruns⟩ :=
    buildInvocation_some env cache e source sourceType function args c1 e1 src off hb
  rw [← hctx] at hheight
  rw [← hli] at hzero
  have hz : (CollectTracingStats env e1).limitsOfExecutionInstructions = 0 := hzero
  rw [hrun, ← hruns]
  simp only [runPrepared, ge_iff_le, hheight, if_true, hz]
  have hS := SetExecutionLimits_engine (CollectTracingStats env e1) 0
    (u64 ((CollectTracingStats env e1).actualTotalMemorySize +
      env.DefaultLimitsOfTotalMemorySize))
  have hE : (SetExecutionLimits (CollectTracingStats env e1) 0
      (u64 ((CollectTracingStats env e1).actualTotalMemorySize +
        env.DefaultLimitsOfTotalMemorySize))).2 = some Err.ErrLimitHasEmpty := by
    simp [SetExecutionLimits]
  rcases hs : SetExecutionLimits (CollectTracingStats env e1) 0
      (u64 ((CollectTracingStats env e1).actualTotalMemorySize +
        env.DefaultLimitsOfTotalMemorySize)) with ⟨e2, err⟩
  rw [hs] at hS hE
  simp only at hS hE
  subst hE
  simp only
  rw [hS]
  refine ⟨trivial, trivial, ?_⟩
  simp [scriptRuns, CollectTracingStats, CV8Engine.called, NativeCall.isRun]

/-- Witness of C20: at height 2000 on an engine whose ceilings were never configured,
a JavaScript invocation that builds is answered with `ErrLimitHasEmpty`. -/
theorem RunContractScript_no_instruction_ceiling_witness :
    (RunContractScript (envWith ⟨0, none, false⟩ ⟨0, 9000000⟩) [] (sampleEngineAt 2000 0 0)
      "class C" "js" "greet" "[]").err = some Err.ErrLimitHasEmpty :=
  (RunContractScript_no_instruction_ceiling (envWith ⟨0, none, false⟩ ⟨0, 9000000⟩) []
    (sampleEngineAt 2000 0 0) "class C" "js" "greet" "[]" _ _ _ _
    (by rfl :
      buildInvocation (envWith ⟨0, none, false⟩ ⟨0, 9000000⟩) [] (sampleEngineAt 2000 0 0)
        "class C" "js" "greet" "[]" =
      some ((prepareRunnableContractScript (envWith ⟨0, none, false⟩ ⟨0, 9000000⟩) []
        (sampleEngineAt 2000 0 0) "class C" "greet" "[]").1,
        (prepareRunnableContractScript (envWith ⟨0, none, false⟩ ⟨0, 9000000⟩) []
        (sampleEngineAt 2000 0 0) "class C" "greet" "[]").2.1,
        (prepareRunnableContractScript (envWith ⟨0, none, false⟩ ⟨0, 9000000⟩) []
        (sampleEngineAt 2000 0 0) "class C" "greet" "[]").2.2.1,
        (prepareRunnableContractScript (envWith ⟨0, none, false⟩ ⟨0, 9000000⟩) []
        (sampleEngineAt 2000 0 0) "class C" "greet" "[]").2.2.2.1))
    (by decide) (by decide)).2.1

/-! ## Splice safety of the escaping -/

/-- The text produced by `formatArgs` has every double quote inside an escape and does
not end inside an escape. -/
theorem quotesEscaped_formatArgsChars (s : List Char) :
    quotesEscaped false (formatArgsChars s) = true := by
  induction s with
  | nil => rfl
  | cons c s ih =>
    rw [formatArgsChars_cons]
    by_cases h1 : c = '\\'
    · subst h1; simpa [quotesEscaped] using ih
    · by_cases h2 : c = '\n'
      · subst h2; simpa [quotesEscaped] using ih
      · by_cases h3 : c = '\r'
        · subst h3; simpa [quotesEscaped] using ih
        · by_cases h4 : c = '"'
          · subst h4; simpa [quotesEscaped] using ih
          · simpa [quotesEscaped, h1, h2, h3, h4] using ih

/-- In a text whose double quotes are all inside an escape, the reader is inside an
escape in front of every double quote. -/
theorem insideEscape_of_quotesEscaped (pre post : List Char) (p : Bool)
    (h : quotesEscaped p (pre ++ '"' :: post) = true) : insideEscape p pre = true := by
  induction pre generalizing p with
  | nil =>
    simp [quotesEscaped] at h
    simpa [insideEscape] using h.1
  | cons c pre ih =>
    simp only [List.cons_append, quotesEscaped] at h
    simp only [insideEscape, List.foldl_cons]
    by_cases h1 : c = '\\'
    · rw [if_pos h1] at h ⊢
      exact ih _ h
    · rw [if_neg h1] at h ⊢
      by_cases h2 : c = '"'
      · rw [if_pos h2] at h
        simp only [Bool.and_eq_true] at h
        exact ih _ h.2
      · rw [if_neg h2] at h
        exact ih _ h

/-- A text whose double quotes are all inside an escape does not end inside one. -/
theorem insideEscape_end_of_quotesEscaped (l : List Char) (p : Bool)
    (h : quotesEscaped p l = true) : insideEscape p l = false := by
  induction l generalizing p with
  | nil => simpa [quotesEscaped, insideEscape] using h
  | cons c l ih =>
    simp only [quotesEscaped] at h
    simp only [insideEscape, List.foldl_cons]
    by_cases h1 : c = '\\'
    · rw [if_pos h1] at h ⊢
      exact ih _ h
    · rw [if_neg h1] at h ⊢
      by_cases h2 : c = '"'
      · rw [if_pos h2] at h
        simp only [Bool.and_eq_true] at h
        exact ih _ h.2
      · rw [if_neg h2] at h
        exact ih _ h

/-- The run of backslashes at the end of a text extended by one character. -/
theorem trailingBackslashes_concat (l : List Char) (c : Char) :
    trailingBackslashes (l ++ [c]) = if c = '\\' then trailingBackslashes l + 1 else 0 := by
  simp only [trailingBackslashes, List.reverse_append, List.reverse_singleton,
    List.singleton_append, List.takeWhile_cons]
  by_cases h : c = '\\'
  · simp [h]
  · simp [h]

/-- Read from the start, the reader is inside an escape exactly after an odd run of
backslashes. -/
theorem insideEscape_iff_odd (l : List Char) :
    insideEscape false l = true ↔ trailingBackslashes l % 2 = 1 := by
  induction l using List.reverseRecOn with
  | nil => simp [insideEscape, trailingBackslashes]
  | append_singleton l c ih =>
    rw [trailingBackslashes_concat]
    simp only [insideEscape, List.foldl_append, List.foldl_cons, List.foldl_nil] at ih ⊢
    by_cases h : c = '\\'
    · rw [if_pos h, if_pos h]
      cases hq : List.foldl (fun q c => if c = '\\' then !q else false) false l with
      | true =>
        have := ih.mp hq
        simp
        omega
      | false =>
        have : ¬ trailingBackslashes l % 2 = 1 := fun h1 => by
          have := ih.mpr h1
          rw [hq] at this
          exact Bool.noConfusion this
        simp
        omega
    · rw [if_neg h, if_neg h]
      simp

/-- The text produced by `formatArgs` contains neither a newline nor a carriage
return. -/
theorem formatArgsChars_no_line_break (s : List Char) :
    '\n' ∉ formatArgsChars s ∧ '\r' ∉ formatArgsChars s := by
  induction s with
  | nil => simp [formatArgsChars, stringsReplace]
  | cons c s ih =>
    rw [formatArgsChars_cons]
    by_cases h1 : c = '\\'
    · subst h1; simpa using ih
    · by_cases h2 : c = '\n'
      · subst h2; simpa using ih
      · by_cases h3 : c = '\r'
        · subst h3; simpa using ih
        · by_cases h4 : c = '"'
          · subst h4; simpa using ih
          · simp only [h1, h2, h3, h4, if_false, List.singleton_append, List.mem_cons,
              not_or]
            exact ⟨⟨Ne.symm h2, ih.1⟩, ⟨Ne.symm h3, ih.2⟩⟩

/-- C18: for every string `s`, `formatArgs(s)` contains no raw newline and no raw
carriage return, every double quote in it is immediately preceded by a run of
backslashes of odd length, and it does not end with a run of backslashes of odd
length. -/
theorem formatArgs_splice_safe (s : String) :
    '\n' ∉ (formatArgs s).data ∧ '\r' ∉ (formatArgs s).data ∧
    (∀ pre post : List Char, (formatArgs s).data = pre ++ '"' :: post →
      trailingBackslashes pre % 2 = 1) ∧
    trailingBackslashes (formatArgs s).data % 2 = 0 := by
  have hq := quotesEscaped_formatArgsChars s.data
  refine ⟨(formatArgsChars_no_line_break s.data).1, (formatArgsChars_no_line_break s.data).2,
    ?_, ?_⟩
  · intro pre post hsplit
    have hsplit2 : formatArgsChars s.data = pre ++ '"' :: post := hsplit
    rw [hsplit2] at hq
    exact (insideEscape_iff_odd pre).mp (insideEscape_of_quotesEscaped pre post false hq)
  · have hend := insideEscape_end_of_quotesEscaped _ false hq
    have hodd : ¬ trailingBackslashes (formatArgsChars s.data) % 2 = 1 := fun h => by
      have := (insideEscape_iff_odd _).mpr h
      rw [hend] at this
      exact Bool.noConfusion this
    show trailingBackslashes (formatArgsChars s.data) % 2 = 0
    omega

/-- Witness of C18: in the escaped form of the five characters `a`, backslash, double
quote, newline, backslash, the double quote comes after three backslashes and the text
ends with two. -/
theorem formatArgs_splice_safe_witness :
    trailingBackslashes ['a', '\\', '\\', '\\'] % 2 = 1 ∧
    trailingBackslashes (formatArgs "a\\\"\n\\").data % 2 = 0 :=
  ⟨(formatArgs_splice_safe "a\\\"\n\\").2.2.1 ['a', '\\', '\\', '\\'] ['\\', 'n', '\\', '\\']
      (by decide),
    (formatArgs_splice_safe "a\\\"\n\\").2.2.2⟩

end Nvm
